import Mathlib

/-!
# NPHeap pseudo device: the object registry of `kernel_module/src/ioctl.c`

A shallow embedding of the registry (`find`, `create_node`) and of the five client
operations (`npheap_mmap`, `npheap_lock`, `npheap_unlock`, `npheap_getsize`,
`npheap_delete`), followed by theorems about them.

Modelling conventions.

* The singly linked chain `head -> ... -> tail` is the list of its nodes in chain order:
  `head == NULL` is the empty list, `tail` is the last node, and
  `tail->next = new_node; tail = new_node` is appending at the end.
* Machine words (`unsigned long`, `long`, `int`, pointers) are natural numbers; the one
  subtraction that can wrap is taken modulo `2 ^ 64`. A value returned through `long`
  or `int` is the word that is returned (the conversion from `unsigned long` keeps it).
* The host primitives are not part of the source. Their outcomes are arguments of the
  operation that calls them: the pointer `kmalloc` returns (`NULL` on failure), the
  value `remap_pfn_range` returns (non-zero on failure), and whether `copy_from_user`
  delivers the command (`none` when it fails).
* A `struct mutex` is a Boolean, `true` while held. `mutex_lock` on a held mutex does
  not return: the call is `blocked`. `list_lock` is taken and released inside every
  call on every returning path, so it is free at each call boundary and is not part of
  the state.
-/

namespace NPHeap

/-! ## Constants of the host headers -/

/-- The null pointer. -/
abbrev NULL : Nat := 0

/-- Value of `EPERM` in `errno.h`. -/
abbrev EPERM : Nat := 1

/-- Value of `EAGAIN` in `errno.h`. -/
abbrev EAGAIN : Nat := 11

/-- Value of `ENOMEM` in `errno.h`. -/
abbrev ENOMEM : Nat := 12

/-- Value of `EINVAL` in `errno.h`. -/
abbrev EINVAL : Nat := 22

/-- Size of a page of the host (4 KiB pages). -/
abbrev PAGE_SIZE : Nat := 4096

/-! ## Data model -/

/-- One `struct node_structure`. The `next` pointer is the position in the chain;
`lock` is `true` while the mutex of the node is held. -/
structure node_structure where
  size : Nat
  data : Nat
  object_ID : Nat
  lock : Bool
  deriving DecidableEq, Repr

/-- The part of `struct npheap_cmd` the code reads: the byte offset naming the object. -/
structure npheap_cmd where
  offset : Nat
  deriving DecidableEq, Repr

/-- The fields of `struct vm_area_struct` that `npheap_mmap` reads. -/
structure vm_area_struct where
  vm_start : Nat
  vm_end : Nat
  vm_pgoff : Nat
  deriving DecidableEq, Repr

/-- One successful `remap_pfn_range` call: the buffer `buffer` of `size` bytes is
exposed at the virtual address `vm_start`. -/
structure mapping where
  vm_start : Nat
  buffer : Nat
  size : Nat
  deriving DecidableEq, Repr

/-- State of the module between two calls: the chain of nodes from `head`, the data
buffers handed out by `kmalloc` and not yet given back to `kfree`, and the mappings
established so far (most recent first). -/
structure State where
  nodes : List node_structure
  kheap : List Nat
  mapped : List mapping
  deriving DecidableEq, Repr

/-- The module right after loading: `head` and `tail` are `NULL`. -/
def State.init : State := { nodes := [], kheap := [], mapped := [] }

/-- How a call ends: it returns the word `ret`, or it waits in `mutex_lock` on a held
object lock, or it dereferences a null pointer. -/
inductive Outcome where
  | returned (ret : Nat) (st : State)
  | blocked (st : State)
  | oops
  deriving DecidableEq, Repr

/-! ## The registry -/

/-- The function `find`: walk the chain from `head` while the node is not the one looked
for; the result is the node the walk stops at, `none` for `NULL`. -/
def find : List node_structure → Nat → Option node_structure
  | [], _ => none
  | temp :: rest, offset =>
    if temp.object_ID ≠ offset then find rest offset else some temp

/-- Assignment through the pointer `find nodes offset`: the node the walk of `find`
stops at is replaced by `f` of it; every other node is left alone. -/
def store : List node_structure → Nat → (node_structure → node_structure) →
    List node_structure
  | [], _, _ => []
  | temp :: rest, offset, f =>
    if temp.object_ID ≠ offset then temp :: store rest offset f else f temp :: rest

/-- The function `create_node`. `new_node` is the pointer `kmalloc` returns. The result
is the returned pointer with the new chain; `none` when the code writes through the
null pointer (`head->next = NULL`, respectively `new_node->next = NULL`, right after a
failed `kmalloc`). -/
def create_node (nodes : List node_structure) (object_ID : Nat) (new_node : Nat) :
    Option (Nat × List node_structure) :=
  match nodes with
  | [] =>
    if new_node = NULL then none
    else some (new_node,
      [{ size := 0, data := NULL, object_ID := object_ID, lock := false }])
  | _ :: _ =>
    if new_node = NULL then none
    else some (new_node,
      nodes ++ [{ size := 0, data := NULL, object_ID := object_ID, lock := false }])

/-! ## The operations -/

/-- The local `node_size` of `npheap_mmap`: `vm_end - vm_start` in 64-bit unsigned
arithmetic. -/
def node_size (vma : vm_area_struct) : Nat :=
  (vma.vm_end + 2 ^ 64 - vma.vm_start % 2 ^ 64) % 2 ^ 64

/-- The end of `npheap_mmap`, from the call of `remap_pfn_range` on. `allocated_data` is
the buffer handed to it and `remap_ret` the value it returns. -/
def mmap_remap (st : State) (vma : vm_area_struct) (allocated_data remap_ret : Nat) :
    Outcome :=
  if remap_ret ≠ 0 then
    .returned EAGAIN { st with
      kheap := st.kheap.erase allocated_data
      nodes := store st.nodes vma.vm_pgoff (fun n => { n with size := 0, data := NULL }) }
  else
    .returned 0 { st with
      mapped := { vm_start := vma.vm_start, buffer := allocated_data,
                  size := node_size vma } :: st.mapped }

/-- The function `npheap_mmap`. `kmalloc_ret` is what `kmalloc` returns if it is called
(the value the local `allocated_data` then has), `remap_ret` what `remap_pfn_range`
returns if it is called. In the branch of an already backed record `allocated_data` is
`node->data`. -/
def npheap_mmap (st : State) (vma : vm_area_struct) (kmalloc_ret remap_ret : Nat) :
    Outcome :=
  match find st.nodes vma.vm_pgoff with
  | none => .returned EPERM st
  | some node =>
    if node.data = NULL then
      if kmalloc_ret = NULL then .returned ENOMEM st
      else if node.size ≠ 0 then
        .returned ENOMEM { st with kheap := (kmalloc_ret :: st.kheap).erase kmalloc_ret }
      else
        mmap_remap { st with
          kheap := kmalloc_ret :: st.kheap
          nodes := store st.nodes vma.vm_pgoff
            (fun n => { n with size := node_size vma, data := kmalloc_ret }) }
          vma kmalloc_ret remap_ret
    else
      if node_size vma ≠ node.size then .returned EINVAL st
      else mmap_remap st vma node.data remap_ret

/-- The two lines `mutex_lock(&(object->lock)); return 0;` of `npheap_lock`, for the
node `object` that `find st.nodes id` points to. -/
def lock_object (st : State) (id : Nat) (object : node_structure) : Outcome :=
  if object.lock then .blocked st
  else .returned 0 { st with nodes := store st.nodes id (fun n => { n with lock := true }) }

/-- The function `npheap_lock`. `user_cmd` is what `copy_from_user` delivers and
`new_node` what `kmalloc` returns inside `create_node`. -/
def npheap_lock (st : State) (user_cmd : Option npheap_cmd) (new_node : Nat) : Outcome :=
  match user_cmd with
  | none => .returned EINVAL st
  | some kern_command =>
    match find st.nodes (kern_command.offset / PAGE_SIZE) with
    | some object => lock_object st (kern_command.offset / PAGE_SIZE) object
    | none =>
      match create_node st.nodes (kern_command.offset / PAGE_SIZE) new_node with
      | none => .oops
      | some (object, nodes1) =>
        if object = NULL then .returned ENOMEM { st with nodes := nodes1 }
        else
          lock_object { st with nodes := nodes1 } (kern_command.offset / PAGE_SIZE)
            { size := 0, data := NULL, object_ID := kern_command.offset / PAGE_SIZE,
              lock := false }

/-- The function `npheap_unlock`. -/
def npheap_unlock (st : State) (user_cmd : Option npheap_cmd) : Outcome :=
  match user_cmd with
  | none => .returned EINVAL st
  | some kern_command =>
    match find st.nodes (kern_command.offset / PAGE_SIZE) with
    | some _ =>
      .returned 0 { st with
        nodes := store st.nodes (kern_command.offset / PAGE_SIZE)
          (fun n => { n with lock := false }) }
    | none => .returned EPERM st

/-- The function `npheap_getsize`. -/
def npheap_getsize (st : State) (user_cmd : Option npheap_cmd) : Outcome :=
  match user_cmd with
  | none => .returned EINVAL st
  | some kern_command =>
    match find st.nodes (kern_command.offset / PAGE_SIZE) with
    | some object => .returned object.size st
    | none => .returned EINVAL st

/-- The function `npheap_delete`. -/
def npheap_delete (st : State) (user_cmd : Option npheap_cmd) : Outcome :=
  match user_cmd with
  | none => .returned EINVAL st
  | some kern_command =>
    match find st.nodes (kern_command.offset / PAGE_SIZE) with
    | some object =>
      if object.data ≠ NULL then
        .returned 0 { st with
          kheap := st.kheap.erase object.data
          nodes := store st.nodes (kern_command.offset / PAGE_SIZE)
            (fun n => { n with data := NULL, size := 0 }) }
      else .returned EPERM st
    | none => .returned EPERM st

/-! ## Sequences of calls -/

/-- One call of a client, with the outcomes of the host primitives it may use. -/
inductive Call where
  | lock (user_cmd : Option npheap_cmd) (new_node : Nat)
  | unlock (user_cmd : Option npheap_cmd)
  | mmap (vma : vm_area_struct) (kmalloc_ret remap_ret : Nat)
  | getsize (user_cmd : Option npheap_cmd)
  | delete (user_cmd : Option npheap_cmd)
  deriving DecidableEq, Repr

/-- Perform one call. -/
def step (st : State) : Call → Outcome
  | .lock user_cmd new_node => npheap_lock st user_cmd new_node
  | .unlock user_cmd => npheap_unlock st user_cmd
  | .mmap vma kmalloc_ret remap_ret => npheap_mmap st vma kmalloc_ret remap_ret
  | .getsize user_cmd => npheap_getsize st user_cmd
  | .delete user_cmd => npheap_delete st user_cmd

/-- Perform the calls one after the other. A blocked call leaves its caller waiting and
the others go on; after a null pointer dereference there is no state to go on from. -/
def run : State → List Call → Option State
  | st, [] => some st
  | st, c :: cs =>
    match step st c with
    | .returned _ st1 => run st1 cs
    | .blocked st1 => run st1 cs
    | .oops => none

/-- The call does not ask for a mapping of length 0: a `Call.mmap` has a positive
`node_size`; the other calls carry no length. -/
def Call.positive_length : Call → Bool
  | .mmap vma _ _ => decide (0 < node_size vma)
  | _ => true

/-- A record has a backing buffer exactly when its size is positive. -/
def data_iff_size (n : node_structure) : Prop := n.data ≠ NULL ↔ 0 < n.size

instance : DecidablePred data_iff_size := fun n => by
  unfold data_iff_size
  infer_instance

/-- Every record of the state has a buffer exactly when its size is positive. -/
def State.consistent (st : State) : Prop := ∀ n ∈ st.nodes, data_iff_size n

/-- The states an outcome leaves behind satisfy `P`. -/
def Outcome.leaves (P : State → Prop) : Outcome → Prop
  | .returned _ st => P st
  | .blocked st => P st
  | .oops => True

/-- The object identifiers of the registry, in chain order. -/
def State.ids (st : State) : List Nat := st.nodes.map (fun n => n.object_ID)

/-- The record with its lock state forgotten (set to free). -/
def forget_lock (n : node_structure) : node_structure := { n with lock := false }

/-- The state with the lock state of every record forgotten. -/
def State.forget_locks (st : State) : State := { st with nodes := st.nodes.map forget_lock }

/-- The outcome with the lock state of every record of its state forgotten. -/
def Outcome.forget_locks : Outcome → Outcome
  | .returned ret st => .returned ret st.forget_locks
  | .blocked st => .blocked st.forget_locks
  | .oops => .oops

/-- The lock states of the records, in chain order. -/
def State.locks (st : State) : List Bool := st.nodes.map (fun n => n.lock)

/-- Size and buffer of the records, in chain order. -/
def State.backings (st : State) : List (Nat × Nat) := st.nodes.map (fun n => (n.size, n.data))

/-- The vmas the host hands to the `mmap` handler of a driver: an address range that is
not empty, lies in the 64-bit address space, and starts and ends on a page boundary. -/
def vm_area_struct.host_built (vma : vm_area_struct) : Prop :=
  vma.vm_start < vma.vm_end ∧ vma.vm_end < 2 ^ 64 ∧
    vma.vm_start % PAGE_SIZE = 0 ∧ vma.vm_end % PAGE_SIZE = 0

/-- The word a call returns, if it returns. -/
def Outcome.ret : Outcome → Option Nat
  | .returned ret _ => some ret
  | .blocked _ => none
  | .oops => none

/-- The call does not ask for a mapping whose length is not a whole number of pages; the
calls other than `Call.mmap` carry no length. -/
def Call.page_aligned : Call → Bool
  | .mmap vma _ _ => decide (node_size vma % PAGE_SIZE = 0)
  | _ => true

/-- The identifier a call names: `vm_pgoff` for `npheap_mmap`, `offset / PAGE_SIZE` of
the command for the others (none when `copy_from_user` fails). -/
def Call.ident : Call → Option Nat
  | .lock user_cmd _ => user_cmd.map (fun cmd => cmd.offset / PAGE_SIZE)
  | .unlock user_cmd => user_cmd.map (fun cmd => cmd.offset / PAGE_SIZE)
  | .mmap vma _ _ => some vma.vm_pgoff
  | .getsize user_cmd => user_cmd.map (fun cmd => cmd.offset / PAGE_SIZE)
  | .delete user_cmd => user_cmd.map (fun cmd => cmd.offset / PAGE_SIZE)

/-- The condition under which `npheap_mmap` reaches `kfree(allocated_data); return ENOMEM;`
behind the test `node->size != 0`: the record is found, it has no buffer, `kmalloc` has
succeeded, and the size is not 0. -/
def mmap_size_branch (st : State) (vma : vm_area_struct) (kmalloc_ret : Nat) : Bool :=
  match find st.nodes vma.vm_pgoff with
  | none => false
  | some node => decide (node.data = NULL ∧ kmalloc_ret ≠ NULL ∧ node.size ≠ 0)

/-! ## Lemmas on `find` and `store` -/

theorem find_eq_none_iff (nodes : List node_structure) (id : Nat) :
    find nodes id = none ↔ ∀ n ∈ nodes, n.object_ID ≠ id := by
  induction nodes with
  | nil => simp [find]
  | cons temp rest ih =>
    by_cases h : temp.object_ID = id <;> simp [find, h, ih]

theorem find_some_id {nodes : List node_structure} {id : Nat} {n : node_structure}
    (h : find nodes id = some n) : n.object_ID = id := by
  induction nodes with
  | nil => simp [find] at h
  | cons temp rest ih =>
    by_cases ht : temp.object_ID = id
    · simp [find, ht] at h
      rw [← h]; exact ht
    · simp [find, ht] at h
      exact ih h

theorem find_some_mem {nodes : List node_structure} {id : Nat} {n : node_structure}
    (h : find nodes id = some n) : n ∈ nodes := by
  induction nodes with
  | nil => simp [find] at h
  | cons temp rest ih =>
    by_cases ht : temp.object_ID = id
    · simp [find, ht] at h
      simp [h]
    · simp [find, ht] at h
      exact List.mem_cons_of_mem _ (ih h)

/-- The node `find` returns is the first of the chain with the identifier looked for. -/
theorem find_eq_some_iff (nodes : List node_structure) (id : Nat) (n : node_structure) :
    find nodes id = some n ↔
      ∃ before after, nodes = before ++ n :: after ∧ n.object_ID = id ∧
        ∀ m ∈ before, m.object_ID ≠ id := by
  induction nodes with
  | nil => simp [find]
  | cons temp rest ih =>
    by_cases ht : temp.object_ID = id
    · simp only [find, ht, ne_eq, not_true_eq_false, if_false, Option.some.injEq]
      constructor
      · rintro rfl
        exact ⟨[], rest, rfl, ht, by simp⟩
      · rintro ⟨before, after, heq, _, hb⟩
        cases before with
        | nil => simp at heq; exact heq.1
        | cons b bs =>
          simp at heq
          exact absurd (heq.1 ▸ ht) (hb b (by simp))
    · simp only [find, ht, ne_eq, not_false_eq_true, if_true, ih]
      constructor
      · rintro ⟨before, after, heq, hid, hb⟩
        refine ⟨temp :: before, after, by simp [heq], hid, ?_⟩
        intro m hm
        rcases List.mem_cons.1 hm with rfl | hm
        · exact ht
        · exact hb m hm
      · rintro ⟨before, after, heq, hid, hb⟩
        cases before with
        | nil =>
          simp at heq
          exact absurd (heq.1 ▸ hid) ht
        | cons b bs =>
          simp at heq
          exact ⟨bs, after, heq.2, hid, fun m hm => hb m (List.mem_cons_of_mem _ hm)⟩

theorem store_of_find_none {nodes : List node_structure} {id : Nat}
    (f : node_structure → node_structure) (h : find nodes id = none) :
    store nodes id f = nodes := by
  induction nodes with
  | nil => rfl
  | cons temp rest ih =>
    by_cases ht : temp.object_ID = id
    · simp [find, ht] at h
    · simp [find, ht] at h
      simp [store, ht, ih h]

/-- Writing through the pointer changes the node it points to and nothing else. -/
theorem store_split {before after : List node_structure} {n : node_structure} {id : Nat}
    (f : node_structure → node_structure) (hid : n.object_ID = id)
    (hb : ∀ m ∈ before, m.object_ID ≠ id) :
    store (before ++ n :: after) id f = before ++ f n :: after := by
  induction before with
  | nil => simp [store, hid]
  | cons b bs ih =>
    have hb1 : b.object_ID ≠ id := hb b (by simp)
    simp [store, hb1, ih (fun m hm => hb m (List.mem_cons_of_mem _ hm))]

theorem find_store {nodes : List node_structure} {id : Nat} {n : node_structure}
    (f : node_structure → node_structure) (h : find nodes id = some n)
    (hf : (f n).object_ID = id) : find (store nodes id f) id = some (f n) := by
  obtain ⟨before, after, heq, hid, hb⟩ := (find_eq_some_iff nodes id n).1 h
  rw [heq, store_split f hid hb]
  exact (find_eq_some_iff _ id (f n)).2 ⟨before, after, rfl, hf, hb⟩

theorem mem_store {nodes : List node_structure} {id : Nat}
    {f : node_structure → node_structure} {m : node_structure}
    (h : m ∈ store nodes id f) : m ∈ nodes ∨ ∃ n ∈ nodes, m = f n := by
  induction nodes with
  | nil => simp [store] at h
  | cons temp rest ih =>
    by_cases ht : temp.object_ID = id
    · simp [store, ht] at h
      rcases h with rfl | h
      · exact Or.inr ⟨temp, by simp, rfl⟩
      · exact Or.inl (List.mem_cons_of_mem _ h)
    · simp [store, ht] at h
      rcases h with rfl | h
      · exact Or.inl (by simp)
      · rcases ih h with h1 | ⟨n, hn, rfl⟩
        · exact Or.inl (List.mem_cons_of_mem _ h1)
        · exact Or.inr ⟨n, List.mem_cons_of_mem _ hn, rfl⟩

theorem find_append_of_none {nodes : List node_structure} {id : Nat} (x : node_structure)
    (h : find nodes id = none) (hx : x.object_ID = id) : find (nodes ++ [x]) id = some x :=
  (find_eq_some_iff _ id x).2 ⟨nodes, [], rfl, hx, (find_eq_none_iff nodes id).1 h⟩

theorem create_node_eq {nodes : List node_structure} (object_ID : Nat) {new_node : Nat}
    (h : new_node ≠ NULL) :
    create_node nodes object_ID new_node = some (new_node,
      nodes ++ [{ size := 0, data := NULL, object_ID := object_ID, lock := false }]) := by
  cases nodes <;> simp [create_node, h]

theorem create_node_null (nodes : List node_structure) (object_ID : Nat) :
    create_node nodes object_ID NULL = none := by
  cases nodes <;> simp [create_node]

/-! ## The size/data invariant along sequences of calls -/

theorem store_forall {nodes : List node_structure} {id : Nat}
    {f : node_structure → node_structure} {P : node_structure → Prop}
    (h : ∀ n ∈ nodes, P n) (hf : ∀ n ∈ nodes, P (f n)) : ∀ m ∈ store nodes id f, P m := by
  intro m hm
  rcases mem_store hm with h1 | ⟨n, hn, rfl⟩
  · exact h m h1
  · exact hf n hn

theorem mmap_remap_data_iff_size {st : State} (vma : vm_area_struct)
    (allocated_data remap_ret : Nat) (h : st.consistent) :
    (mmap_remap st vma allocated_data remap_ret).leaves State.consistent := by
  unfold mmap_remap
  split
  · exact store_forall h (fun n _ => by simp [data_iff_size])
  · exact h

theorem lock_object_data_iff_size {st : State} (id : Nat) (object : node_structure)
    (h : st.consistent) : (lock_object st id object).leaves State.consistent := by
  unfold lock_object
  split
  · exact h
  · exact store_forall h (fun n hn => by simpa [data_iff_size] using h n hn)

theorem step_data_iff_size {st : State} (c : Call) (h : st.consistent)
    (hc : c.positive_length = true) : (step st c).leaves State.consistent := by
  cases c with
  | lock user_cmd new_node =>
    cases user_cmd with
    | none => exact h
    | some cmd =>
      simp only [step, npheap_lock]
      split
      · exact lock_object_data_iff_size _ _ h
      · split
        · trivial
        · rename_i object nodes1 hcreate
          have hn : new_node ≠ NULL := by
            intro h0
            rw [h0, create_node_null] at hcreate
            exact Option.noConfusion hcreate
          rw [create_node_eq _ hn] at hcreate
          simp only [Option.some.injEq, Prod.mk.injEq] at hcreate
          have h1 : State.consistent { st with nodes := nodes1 } := by
            intro n hmem
            rw [← hcreate.2] at hmem
            rcases List.mem_append.1 hmem with hmem | hmem
            · exact h n hmem
            · simp at hmem
              subst hmem
              simp [data_iff_size]
          split
          · exact h1
          · exact lock_object_data_iff_size _ _ h1
  | unlock user_cmd =>
    cases user_cmd with
    | none => exact h
    | some cmd =>
      simp only [step, npheap_unlock]
      split
      · exact store_forall h (fun n hn => by simpa [data_iff_size] using h n hn)
      · exact h
  | mmap vma kmalloc_ret remap_ret =>
    simp only [Call.positive_length, decide_eq_true_eq] at hc
    simp only [step, npheap_mmap]
    split
    · exact h
    · split
      · split
        · exact h
        · rename_i hk
          split
          · exact h
          · apply mmap_remap_data_iff_size
            refine store_forall h (fun n _ => ?_)
            have hk0 : kmalloc_ret ≠ 0 := hk
            simp [data_iff_size, hk0, hc]
      · split
        · exact h
        · exact mmap_remap_data_iff_size _ _ _ h
  | getsize user_cmd =>
    cases user_cmd with
    | none => exact h
    | some cmd =>
      simp only [step, npheap_getsize]
      split <;> exact h
  | delete user_cmd =>
    cases user_cmd with
    | none => exact h
    | some cmd =>
      simp only [step, npheap_delete]
      split
      · split
        · exact store_forall h (fun n _ => by simp [data_iff_size])
        · exact h
      · exact h

theorem run_data_iff_size (calls : List Call) :
    ∀ (st st1 : State), st.consistent → (∀ c ∈ calls, c.positive_length = true) →
      run st calls = some st1 → st1.consistent := by
  induction calls with
  | nil =>
    intro st st1 h _ hrun
    simp only [run, Option.some.injEq] at hrun
    exact hrun ▸ h
  | cons c cs ih =>
    intro st st1 h hpos hrun
    have hstep := step_data_iff_size c h (hpos c (by simp))
    have hcs : ∀ c1 ∈ cs, c1.positive_length = true :=
      fun c1 hc1 => hpos c1 (List.mem_cons_of_mem _ hc1)
    simp only [run] at hrun
    split at hrun
    · rename_i ret st2 heq
      rw [heq] at hstep
      exact ih st2 st1 hstep hcs hrun
    · rename_i st2 heq
      rw [heq] at hstep
      exact ih st2 st1 hstep hcs hrun
    · exact Option.noConfusion hrun

/-! ## What a successful `npheap_mmap` leaves behind -/

/-- When `npheap_mmap` returns 0 the record existed, it now has the requested size and a
non-null buffer `b`, that buffer is the one handed to `remap_pfn_range`, and
`remap_pfn_range` returned 0. -/
theorem mmap_returned_zero {st st1 : State} {vma : vm_area_struct} {kmalloc_ret remap_ret : Nat}
    (h : npheap_mmap st vma kmalloc_ret remap_ret = .returned 0 st1) :
    ∃ node b, find st.nodes vma.vm_pgoff = some node ∧ b ≠ NULL ∧
      find st1.nodes vma.vm_pgoff = some { node with size := node_size vma, data := b } ∧
      st1.mapped = { vm_start := vma.vm_start, buffer := b, size := node_size vma } :: st.mapped ∧
      remap_ret = 0 := by
  unfold npheap_mmap at h
  split at h
  · simp at h
  · rename_i node hfind
    split at h
    · split at h
      · simp at h
      · rename_i hk
        split at h
        · simp at h
        · unfold mmap_remap at h
          split at h
          · simp at h
          · rename_i hr
            simp only [Outcome.returned.injEq, true_and] at h
            subst h
            refine ⟨node, kmalloc_ret, hfind, hk, ?_, rfl, by simpa using hr⟩
            have hid : node.object_ID = vma.vm_pgoff := find_some_id hfind
            exact find_store (fun n => { n with size := node_size vma, data := kmalloc_ret })
              hfind hid
    · rename_i hd
      split at h
      · simp at h
      · rename_i hsz
        unfold mmap_remap at h
        split at h
        · simp at h
        · rename_i hr
          simp only [Outcome.returned.injEq, true_and] at h
          subst h
          refine ⟨node, node.data, hfind, hd, ?_, rfl, by simpa using hr⟩
          have hsz1 : node_size vma = node.size := by simpa using hsz
          simp only [hfind, hsz1]

/-- When `npheap_delete` returns 0 the record existed with a buffer, and afterwards it
has no buffer and size 0. -/
theorem delete_returned_zero {st st1 : State} {cmd : npheap_cmd}
    (h : npheap_delete st (some cmd) = .returned 0 st1) :
    ∃ object, find st.nodes (cmd.offset / PAGE_SIZE) = some object ∧ object.data ≠ NULL ∧
      find st1.nodes (cmd.offset / PAGE_SIZE) = some { object with data := NULL, size := 0 } ∧
      st1.mapped = st.mapped := by
  simp only [npheap_delete] at h
  split at h
  · rename_i object hfind
    split at h
    · rename_i hd
      simp only [Outcome.returned.injEq, true_and] at h
      subst h
      have hid : object.object_ID = cmd.offset / PAGE_SIZE := find_some_id hfind
      exact ⟨object, hfind, hd,
        find_store (fun n => { n with data := NULL, size := 0 }) hfind hid, rfl⟩
    · simp at h
  · simp at h

/-- The pointer `create_node` returns is never null: its `kmalloc` result is
dereferenced before it is returned. -/
theorem create_node_ne_null {nodes nodes1 : List node_structure} {object_ID new_node object : Nat}
    (h : create_node nodes object_ID new_node = some (object, nodes1)) : object ≠ NULL := by
  intro h0
  cases nodes <;> by_cases hn : new_node = NULL <;> simp [create_node, hn] at h <;> omega

/-- No call of `npheap_lock` returns `ENOMEM`. -/
theorem npheap_lock_ne_ENOMEM (st st1 : State) (user_cmd : Option npheap_cmd)
    (new_node : Nat) : npheap_lock st user_cmd new_node ≠ .returned ENOMEM st1 := by
  intro h
  cases user_cmd with
  | none => simp [npheap_lock] at h
  | some cmd =>
    simp only [npheap_lock] at h
    split at h
    · rename_i object _
      cases hl : object.lock <;> simp [lock_object, hl] at h
    · split at h
      · exact Outcome.noConfusion h
      · rename_i object nodes1 hcreate
        have hne := create_node_ne_null hcreate
        simp [hne, lock_object] at h

/-- The length of a vma the host builds is positive and a whole number of pages, so a
call of `npheap_mmap` for it satisfies `Call.positive_length` and `Call.page_aligned`. -/
theorem host_built_length (vma : vm_area_struct) (kmalloc_ret remap_ret : Nat)
    (h : vma.host_built) :
    0 < node_size vma ∧ node_size vma % PAGE_SIZE = 0 ∧
      (Call.mmap vma kmalloc_ret remap_ret).positive_length = true ∧
      (Call.mmap vma kmalloc_ret remap_ret).page_aligned = true := by
  obtain ⟨hlt, hend, hs, he⟩ := h
  have hsize : node_size vma = vma.vm_end - vma.vm_start := by
    unfold node_size
    have h1 : vma.vm_start % 2 ^ 64 = vma.vm_start := Nat.mod_eq_of_lt (by omega)
    rw [h1]
    omega
  have hpos : 0 < node_size vma := by omega
  have hpage : node_size vma % PAGE_SIZE = 0 := by
    rw [hsize]
    simp only [PAGE_SIZE] at hs he ⊢
    omega
  exact ⟨hpos, hpage, by simp [Call.positive_length, hpos],
    by simp [Call.page_aligned, hpage]⟩

/-! ## Claims -/

/-- C1: in every state reachable from the empty registry by any sequence of
`npheap_lock`, `npheap_unlock`, `npheap_mmap`, `npheap_getsize` and `npheap_delete`
calls (any identifiers, any allocation and host-mapping outcomes, any length a vma can
have: an `npheap_mmap` is called for a vma that is not empty), every record has a backing
buffer if and only if its size is greater than 0. -/
theorem C1_data_iff_size_reachable (calls : List Call) (st : State)
    (hpos : ∀ c ∈ calls, c.positive_length = true)
    (hrun : run State.init calls = some st) :
    ∀ n ∈ st.nodes, (n.data ≠ NULL ↔ 0 < n.size) := by
  intro n hn
  exact run_data_iff_size calls State.init st (by intro m hm; simp [State.init] at hm)
    hpos hrun n hn

/-- Witness of C1: lock object 3, map 4096 bytes, release them, map 8192 bytes with the
host mapping failing; the record of object 3 ends with no buffer and size 0. -/
theorem C1_data_iff_size_reachable_witness :
    run State.init
        [Call.lock (some { offset := 12288 }) 4096,
         Call.mmap { vm_start := 0, vm_end := 4096, vm_pgoff := 3 } 8192 0,
         Call.delete (some { offset := 12288 }),
         Call.mmap { vm_start := 0, vm_end := 8192, vm_pgoff := 3 } 16384 1]
      = some { nodes := [{ size := 0, data := NULL, object_ID := 3, lock := true }],
               kheap := [], mapped := [{ vm_start := 0, buffer := 8192, size := 4096 }] } ∧
    (({ size := 0, data := NULL, object_ID := 3, lock := true } : node_structure).data ≠ NULL ↔
      0 < ({ size := 0, data := NULL, object_ID := 3, lock := true } : node_structure).size) :=
  ⟨by decide,
   C1_data_iff_size_reachable
    [Call.lock (some { offset := 12288 }) 4096,
     Call.mmap { vm_start := 0, vm_end := 4096, vm_pgoff := 3 } 8192 0,
     Call.delete (some { offset := 12288 }),
     Call.mmap { vm_start := 0, vm_end := 8192, vm_pgoff := 3 } 16384 1]
    { nodes := [{ size := 0, data := NULL, object_ID := 3, lock := true }],
      kheap := [], mapped := [{ vm_start := 0, buffer := 8192, size := 4096 }] }
    (by decide) (by decide)
    { size := 0, data := NULL, object_ID := 3, lock := true } (by decide)⟩

/-- C2 (as stated, refuted): for a never-created identifier the three calls do not
give one common error signal. On the empty registry `npheap_getsize` returns `EINVAL`
while `npheap_unlock` and `npheap_delete` return `EPERM`. -/
theorem C2_same_signal_counterexample :
    ¬ ∀ (st : State) (cmd : npheap_cmd), find st.nodes (cmd.offset / PAGE_SIZE) = none →
        ∃ e, npheap_getsize st (some cmd) = .returned e st ∧
          npheap_unlock st (some cmd) = .returned e st ∧
          npheap_delete st (some cmd) = .returned e st := by
  intro h
  obtain ⟨e, h1, h2, _⟩ := h State.init { offset := 0 } rfl
  have e1 : (22 : Nat) = e := by
    simpa [npheap_getsize, find, State.init] using h1
  have e2 : (1 : Nat) = e := by
    simpa [npheap_unlock, find, State.init] using h2
  omega

/-- C2 (amended): for every registry state and every identifier with no record in the
registry, `npheap_getsize` fails with `EINVAL`, `npheap_unlock` and `npheap_delete` fail
with `EPERM`, and each of the three leaves the state unchanged. -/
theorem C2_absent_identifier_errors (st : State) (cmd : npheap_cmd)
    (habsent : find st.nodes (cmd.offset / PAGE_SIZE) = none) :
    npheap_getsize st (some cmd) = .returned EINVAL st ∧
      npheap_unlock st (some cmd) = .returned EPERM st ∧
      npheap_delete st (some cmd) = .returned EPERM st := by
  simp [npheap_getsize, npheap_unlock, npheap_delete, habsent]

/-- Witness of C2: object 1 exists and is backed, object 2 was never created. -/
theorem C2_absent_identifier_errors_witness :
    npheap_getsize
        { nodes := [{ size := 4096, data := 64, object_ID := 1, lock := true }],
          kheap := [64], mapped := [] } (some { offset := 8192 })
      = .returned EINVAL
        { nodes := [{ size := 4096, data := 64, object_ID := 1, lock := true }],
          kheap := [64], mapped := [] } ∧
    npheap_unlock
        { nodes := [{ size := 4096, data := 64, object_ID := 1, lock := true }],
          kheap := [64], mapped := [] } (some { offset := 8192 })
      = .returned EPERM
        { nodes := [{ size := 4096, data := 64, object_ID := 1, lock := true }],
          kheap := [64], mapped := [] } ∧
    npheap_delete
        { nodes := [{ size := 4096, data := 64, object_ID := 1, lock := true }],
          kheap := [64], mapped := [] } (some { offset := 8192 })
      = .returned EPERM
        { nodes := [{ size := 4096, data := 64, object_ID := 1, lock := true }],
          kheap := [64], mapped := [] } :=
  C2_absent_identifier_errors
    { nodes := [{ size := 4096, data := 64, object_ID := 1, lock := true }],
      kheap := [64], mapped := [] } { offset := 8192 } (by decide)

/-- C3: for every state, identifier and length, if no record with the identifier exists
then `npheap_mmap` returns `EPERM` (its not-found signal) whatever `kmalloc` and
`remap_pfn_range` would have answered, and the state it leaves is the state it found:
no record is created, no buffer is allocated, nothing is mapped. -/
theorem C3_mmap_absent (st : State) (vma : vm_area_struct) (kmalloc_ret remap_ret : Nat)
    (habsent : find st.nodes vma.vm_pgoff = none) :
    npheap_mmap st vma kmalloc_ret remap_ret = .returned EPERM st := by
  simp [npheap_mmap, habsent]

/-- Witness of C3: object 7 is asked for in a registry that holds only object 1. -/
theorem C3_mmap_absent_witness :
    npheap_mmap
        { nodes := [{ size := 0, data := NULL, object_ID := 1, lock := true }],
          kheap := [], mapped := [] }
        { vm_start := 0, vm_end := 4096, vm_pgoff := 7 } 64 0
      = .returned EPERM
        { nodes := [{ size := 0, data := NULL, object_ID := 1, lock := true }],
          kheap := [], mapped := [] } :=
  C3_mmap_absent _ _ 64 0 (by decide)

/-- C4: after `npheap_mmap` for an identifier returned 0 with length `L1`, the record has
size `L1` and a buffer `b`, the one that was mapped. A second `npheap_mmap` for the same
identifier with a length different from `L1` returns `EINVAL` and leaves the state as it
is (whatever `kmalloc` and `remap_pfn_range` would answer); with the same length and
`remap_pfn_range` succeeding it returns 0, maps the same buffer `b`, and changes nothing
but the list of mappings, so that size and buffer stay `L1` and `b`. -/
theorem C4_second_mmap (st st1 : State) (vma1 vma2 : vm_area_struct)
    (k1 r1 k2 r2 : Nat) (hid : vma2.vm_pgoff = vma1.vm_pgoff)
    (hfirst : npheap_mmap st vma1 k1 r1 = .returned 0 st1) :
    ∃ node b, find st1.nodes vma1.vm_pgoff = some node ∧
      node.size = node_size vma1 ∧ node.data = b ∧ b ≠ NULL ∧
      st1.mapped.head? =
        some { vm_start := vma1.vm_start, buffer := b, size := node_size vma1 } ∧
      (node_size vma2 ≠ node_size vma1 →
        npheap_mmap st1 vma2 k2 r2 = .returned EINVAL st1) ∧
      (node_size vma2 = node_size vma1 → r2 = 0 →
        npheap_mmap st1 vma2 k2 r2 = .returned 0 { st1 with
          mapped := { vm_start := vma2.vm_start, buffer := b, size := node_size vma2 }
            :: st1.mapped }) := by
  obtain ⟨node0, b, _, hb, hfind1, hmapped, _⟩ := mmap_returned_zero hfirst
  refine ⟨_, b, hfind1, rfl, rfl, hb, by simp [hmapped], ?_, ?_⟩
  · intro hne
    simp [npheap_mmap, hid, hfind1, hb, hne]
  · intro heq hr
    simp [npheap_mmap, hid, hfind1, hb, heq, hr, mmap_remap]

/-- Witness of C4: object 5 exists and is empty; 4096 bytes are mapped, `kmalloc` gives
the buffer at 64. A second mapping of 8192 bytes is refused, a second mapping of 4096
bytes at another address maps the buffer at 64 again. -/
theorem C4_second_mmap_witness :
    npheap_mmap
        { nodes := [{ size := 4096, data := 64, object_ID := 5, lock := true }],
          kheap := [64], mapped := [{ vm_start := 0, buffer := 64, size := 4096 }] }
        { vm_start := 4096, vm_end := 12288, vm_pgoff := 5 } 128 0
      = .returned EINVAL
        { nodes := [{ size := 4096, data := 64, object_ID := 5, lock := true }],
          kheap := [64], mapped := [{ vm_start := 0, buffer := 64, size := 4096 }] } ∧
    npheap_mmap
        { nodes := [{ size := 4096, data := 64, object_ID := 5, lock := true }],
          kheap := [64], mapped := [{ vm_start := 0, buffer := 64, size := 4096 }] }
        { vm_start := 8192, vm_end := 12288, vm_pgoff := 5 } 128 0
      = .returned 0
        { nodes := [{ size := 4096, data := 64, object_ID := 5, lock := true }],
          kheap := [64],
          mapped := [{ vm_start := 8192, buffer := 64, size := 4096 },
                     { vm_start := 0, buffer := 64, size := 4096 }] } := by
  obtain ⟨_, _, _, _, _, _, _, hdiff, _⟩ := C4_second_mmap
    { nodes := [{ size := 0, data := NULL, object_ID := 5, lock := true }],
      kheap := [], mapped := [] }
    { nodes := [{ size := 4096, data := 64, object_ID := 5, lock := true }],
      kheap := [64], mapped := [{ vm_start := 0, buffer := 64, size := 4096 }] }
    { vm_start := 0, vm_end := 4096, vm_pgoff := 5 }
    { vm_start := 4096, vm_end := 12288, vm_pgoff := 5 }
    64 0 128 0 rfl (by decide)
  obtain ⟨node, b, hfind, _, hdata, _, _, _, hsame⟩ := C4_second_mmap
    { nodes := [{ size := 0, data := NULL, object_ID := 5, lock := true }],
      kheap := [], mapped := [] }
    { nodes := [{ size := 4096, data := 64, object_ID := 5, lock := true }],
      kheap := [64], mapped := [{ vm_start := 0, buffer := 64, size := 4096 }] }
    { vm_start := 0, vm_end := 4096, vm_pgoff := 5 }
    { vm_start := 8192, vm_end := 12288, vm_pgoff := 5 }
    64 0 128 0 rfl (by decide)
  have hb : b = 64 := by
    simp [find] at hfind
    rw [← hdata, ← hfind]
  subst hb
  exact ⟨hdiff (by decide), hsame (by decide) rfl⟩

/-- C5: for every identifier and length, right after `npheap_mmap` returned 0 for the
identifier with length `L`, `npheap_getsize` returns `L`; and right after
`npheap_delete` returned 0 for the identifier, `npheap_getsize` returns 0. Neither
query changes the state. -/
theorem C5_getsize_after_mmap_and_delete (st st1 : State) (cmd : npheap_cmd) :
    (∀ (vma : vm_area_struct) (kmalloc_ret remap_ret : Nat),
        vma.vm_pgoff = cmd.offset / PAGE_SIZE →
        npheap_mmap st vma kmalloc_ret remap_ret = .returned 0 st1 →
        npheap_getsize st1 (some cmd) = .returned (node_size vma) st1) ∧
    (∀ cmd2 : npheap_cmd, cmd2.offset / PAGE_SIZE = cmd.offset / PAGE_SIZE →
        npheap_delete st (some cmd2) = .returned 0 st1 →
        npheap_getsize st1 (some cmd) = .returned 0 st1) := by
  constructor
  · intro vma kmalloc_ret remap_ret hid h
    obtain ⟨node, b, _, _, hfind1, _, _⟩ := mmap_returned_zero h
    rw [hid] at hfind1
    simp [npheap_getsize, hfind1]
  · intro cmd2 hid h
    obtain ⟨object, _, _, hfind1, _⟩ := delete_returned_zero h
    rw [hid] at hfind1
    simp [npheap_getsize, hfind1]

/-- Witness of C5: object 2 is mapped with 8192 bytes from the empty record and the
query returns 8192; it is released and the query returns 0. -/
theorem C5_getsize_after_mmap_and_delete_witness :
    npheap_getsize
        { nodes := [{ size := 8192, data := 64, object_ID := 2, lock := false }],
          kheap := [64], mapped := [{ vm_start := 4096, buffer := 64, size := 8192 }] }
        (some { offset := 8192 })
      = .returned (node_size { vm_start := 4096, vm_end := 12288, vm_pgoff := 2 })
        { nodes := [{ size := 8192, data := 64, object_ID := 2, lock := false }],
          kheap := [64], mapped := [{ vm_start := 4096, buffer := 64, size := 8192 }] } ∧
    npheap_getsize
        { nodes := [{ size := 0, data := NULL, object_ID := 2, lock := false }],
          kheap := [], mapped := [{ vm_start := 4096, buffer := 64, size := 8192 }] }
        (some { offset := 8192 })
      = .returned 0
        { nodes := [{ size := 0, data := NULL, object_ID := 2, lock := false }],
          kheap := [], mapped := [{ vm_start := 4096, buffer := 64, size := 8192 }] } :=
  ⟨(C5_getsize_after_mmap_and_delete
      { nodes := [{ size := 0, data := NULL, object_ID := 2, lock := false }],
        kheap := [], mapped := [] }
      { nodes := [{ size := 8192, data := 64, object_ID := 2, lock := false }],
        kheap := [64], mapped := [{ vm_start := 4096, buffer := 64, size := 8192 }] }
      { offset := 8192 }).1
      { vm_start := 4096, vm_end := 12288, vm_pgoff := 2 } 64 0 (by decide) (by decide),
   (C5_getsize_after_mmap_and_delete
      { nodes := [{ size := 8192, data := 64, object_ID := 2, lock := false }],
        kheap := [64], mapped := [{ vm_start := 4096, buffer := 64, size := 8192 }] }
      { nodes := [{ size := 0, data := NULL, object_ID := 2, lock := false }],
        kheap := [], mapped := [{ vm_start := 4096, buffer := 64, size := 8192 }] }
      { offset := 8192 }).2
      { offset := 8200 } (by decide) (by decide)⟩

/-- C6: for every record and requested length, if `npheap_mmap` reaches the call of
`remap_pfn_range` (the record had no buffer, `kmalloc` succeeded and the size was 0; or
the record had a buffer and the requested length equals its size) and that call fails,
then `npheap_mmap` returns `EAGAIN` and afterwards the record has size 0 and no buffer,
its identifier and lock being as before. -/
theorem C6_mmap_remap_failure (st : State) (vma : vm_area_struct)
    (kmalloc_ret remap_ret : Nat) (node : node_structure)
    (hfind : find st.nodes vma.vm_pgoff = some node)
    (hreach : (node.data = NULL ∧ kmalloc_ret ≠ NULL ∧ node.size = 0) ∨
      (node.data ≠ NULL ∧ node_size vma = node.size))
    (hfail : remap_ret ≠ 0) :
    ∃ st1, npheap_mmap st vma kmalloc_ret remap_ret = .returned EAGAIN st1 ∧
      find st1.nodes vma.vm_pgoff = some { node with size := 0, data := NULL } := by
  have hid : node.object_ID = vma.vm_pgoff := find_some_id hfind
  rcases hreach with ⟨hd, hk, hs⟩ | ⟨hd, hs⟩
  · have hcall : npheap_mmap st vma kmalloc_ret remap_ret =
        mmap_remap { st with
          kheap := kmalloc_ret :: st.kheap
          nodes := store st.nodes vma.vm_pgoff
            (fun n => { n with size := node_size vma, data := kmalloc_ret }) }
          vma kmalloc_ret remap_ret := by
      simp [npheap_mmap, hfind, hd, hk, hs]
    rw [hcall]
    unfold mmap_remap
    rw [if_pos hfail]
    have h1 := find_store (fun n => { n with size := node_size vma, data := kmalloc_ret })
      hfind hid
    have h2 := find_store (fun n => { n with size := 0, data := NULL }) h1 hid
    exact ⟨_, rfl, h2⟩
  · have hcall : npheap_mmap st vma kmalloc_ret remap_ret =
        mmap_remap st vma node.data remap_ret := by
      simp [npheap_mmap, hfind, hd, hs]
    rw [hcall]
    unfold mmap_remap
    rw [if_pos hfail]
    have h2 := find_store (fun n => { n with size := 0, data := NULL }) hfind hid
    exact ⟨_, rfl, h2⟩

/-- Witness of C6: object 9 is backed by 4096 bytes at 64 and a second mapping of the
same length fails in `remap_pfn_range`. -/
theorem C6_mmap_remap_failure_witness :
    ∃ st1,
      npheap_mmap
          { nodes := [{ size := 4096, data := 64, object_ID := 9, lock := true }],
            kheap := [64], mapped := [{ vm_start := 0, buffer := 64, size := 4096 }] }
          { vm_start := 8192, vm_end := 12288, vm_pgoff := 9 } 128 14
        = .returned EAGAIN st1 ∧
      find st1.nodes 9 = some { size := 0, data := NULL, object_ID := 9, lock := true } :=
  C6_mmap_remap_failure
    { nodes := [{ size := 4096, data := 64, object_ID := 9, lock := true }],
      kheap := [64], mapped := [{ vm_start := 0, buffer := 64, size := 4096 }] }
    { vm_start := 8192, vm_end := 12288, vm_pgoff := 9 } 128 14
    { size := 4096, data := 64, object_ID := 9, lock := true }
    (by decide) (Or.inr (by decide)) (by decide)

/-- C7: for every existing record with size 0 and no buffer and every length: if
`kmalloc` fails, `npheap_mmap` returns `ENOMEM` and the state is unchanged; if `kmalloc`
and `remap_pfn_range` succeed, `npheap_mmap` returns 0, the record has exactly the
requested length as size and the buffer `kmalloc` returned as data, and that buffer is
among the live allocations. -/
theorem C7_mmap_empty_record (st : State) (vma : vm_area_struct)
    (kmalloc_ret remap_ret : Nat) (node : node_structure)
    (hfind : find st.nodes vma.vm_pgoff = some node)
    (hsize : node.size = 0) (hdata : node.data = NULL) :
    (kmalloc_ret = NULL → npheap_mmap st vma kmalloc_ret remap_ret = .returned ENOMEM st) ∧
    (kmalloc_ret ≠ NULL → remap_ret = 0 →
      ∃ st1, npheap_mmap st vma kmalloc_ret remap_ret = .returned 0 st1 ∧
        find st1.nodes vma.vm_pgoff =
          some { node with size := node_size vma, data := kmalloc_ret } ∧
        kmalloc_ret ∈ st1.kheap) := by
  have hid : node.object_ID = vma.vm_pgoff := find_some_id hfind
  constructor
  · intro hk
    simp [npheap_mmap, hfind, hdata, hk]
  · intro hk hr
    have hcall : npheap_mmap st vma kmalloc_ret remap_ret =
        mmap_remap { st with
          kheap := kmalloc_ret :: st.kheap
          nodes := store st.nodes vma.vm_pgoff
            (fun n => { n with size := node_size vma, data := kmalloc_ret }) }
          vma kmalloc_ret remap_ret := by
      simp [npheap_mmap, hfind, hdata, hk, hsize]
    rw [hcall]
    unfold mmap_remap
    rw [if_neg (by simp [hr])]
    have h2 := find_store (fun n => { n with size := node_size vma, data := kmalloc_ret })
      hfind hid
    exact ⟨_, rfl, h2, by simp⟩

/-- Witness of C7: object 4 was created by a lock and never mapped; once `kmalloc` fails,
once it returns the buffer at 128. -/
theorem C7_mmap_empty_record_witness :
    npheap_mmap
        { nodes := [{ size := 0, data := NULL, object_ID := 4, lock := true }],
          kheap := [], mapped := [] }
        { vm_start := 0, vm_end := 4096, vm_pgoff := 4 } NULL 0
      = .returned ENOMEM
        { nodes := [{ size := 0, data := NULL, object_ID := 4, lock := true }],
          kheap := [], mapped := [] } ∧
    ∃ st1,
      npheap_mmap
          { nodes := [{ size := 0, data := NULL, object_ID := 4, lock := true }],
            kheap := [], mapped := [] }
          { vm_start := 0, vm_end := 4096, vm_pgoff := 4 } 128 0
        = .returned 0 st1 ∧
      find st1.nodes 4 =
        some { size := node_size { vm_start := 0, vm_end := 4096, vm_pgoff := 4 },
               data := 128, object_ID := 4, lock := true } ∧
      128 ∈ st1.kheap :=
  ⟨(C7_mmap_empty_record
      { nodes := [{ size := 0, data := NULL, object_ID := 4, lock := true }],
        kheap := [], mapped := [] }
      { vm_start := 0, vm_end := 4096, vm_pgoff := 4 } NULL 0
      { size := 0, data := NULL, object_ID := 4, lock := true }
      (by decide) rfl rfl).1 rfl,
   (C7_mmap_empty_record
      { nodes := [{ size := 0, data := NULL, object_ID := 4, lock := true }],
        kheap := [], mapped := [] }
      { vm_start := 0, vm_end := 4096, vm_pgoff := 4 } 128 0
      { size := 0, data := NULL, object_ID := 4, lock := true }
      (by decide) rfl rfl).2 (by decide) rfl⟩

/-- C8: for every identifier whose record exists but has no backing buffer,
`npheap_delete` returns `EPERM` and leaves the state unchanged; for an identifier with
no record it returns the same `EPERM`, the state unchanged as well. -/
theorem C8_delete_without_buffer (st : State) (cmd : npheap_cmd)
    (h : find st.nodes (cmd.offset / PAGE_SIZE) = none ∨
      ∃ object, find st.nodes (cmd.offset / PAGE_SIZE) = some object ∧ object.data = NULL) :
    npheap_delete st (some cmd) = .returned EPERM st := by
  rcases h with h | ⟨object, h, hd⟩
  · simp [npheap_delete, h]
  · simp [npheap_delete, h, hd]

/-- Witness of C8: object 6 was created by a lock and never mapped. -/
theorem C8_delete_without_buffer_witness :
    npheap_delete
        { nodes := [{ size := 0, data := NULL, object_ID := 6, lock := true }],
          kheap := [], mapped := [] } (some { offset := 24576 })
      = .returned EPERM
        { nodes := [{ size := 0, data := NULL, object_ID := 6, lock := true }],
          kheap := [], mapped := [] } :=
  C8_delete_without_buffer
    { nodes := [{ size := 0, data := NULL, object_ID := 6, lock := true }],
      kheap := [], mapped := [] } { offset := 24576 }
    (Or.inr ⟨{ size := 0, data := NULL, object_ID := 6, lock := true }, by decide, rfl⟩)

/-- C9 (as stated, refuted): `npheap_lock` does not return success in every state. When
the record of the identifier exists and its lock is held, `mutex_lock` waits and the
call does not return. -/
theorem C9_held_lock_counterexample :
    ¬ ∃ st1,
      npheap_lock
          { nodes := [{ size := 0, data := NULL, object_ID := 3, lock := true }],
            kheap := [], mapped := [] } (some { offset := 12288 }) 4096
        = .returned 0 st1 := by
  rintro ⟨st1, h⟩
  have hb : npheap_lock
      { nodes := [{ size := 0, data := NULL, object_ID := 3, lock := true }],
        kheap := [], mapped := [] } (some { offset := 12288 }) 4096
      = .blocked { nodes := [{ size := 0, data := NULL, object_ID := 3, lock := true }],
                   kheap := [], mapped := [] } := by decide
  rw [hb] at h
  exact Outcome.noConfusion h

/-- C9 (amended): `npheap_lock` is find-or-create. If a record with the identifier exists
and its lock is free, the call returns 0 and the chain is the old one with the lock of
that record (the first with the identifier) held, no record being added. If it exists
and its lock is held, the call waits and the state is unchanged. If none exists and the
allocation of the record succeeds, the call returns 0 and exactly one record is appended
at the end of the chain, with the identifier, size 0, no buffer, and its lock held. -/
theorem C9_lock_find_or_create (st : State) (cmd : npheap_cmd) (new_node : Nat) :
    (∀ object, find st.nodes (cmd.offset / PAGE_SIZE) = some object → object.lock = false →
      ∃ before after, st.nodes = before ++ object :: after ∧
        (∀ m ∈ before, m.object_ID ≠ cmd.offset / PAGE_SIZE) ∧
        npheap_lock st (some cmd) new_node = .returned 0 { st with
          nodes := before ++ { object with lock := true } :: after }) ∧
    (∀ object, find st.nodes (cmd.offset / PAGE_SIZE) = some object → object.lock = true →
      npheap_lock st (some cmd) new_node = .blocked st) ∧
    (find st.nodes (cmd.offset / PAGE_SIZE) = none → new_node ≠ NULL →
      npheap_lock st (some cmd) new_node = .returned 0 { st with
        nodes := st.nodes ++ [{ size := 0, data := NULL,
                                object_ID := cmd.offset / PAGE_SIZE, lock := true }] }) := by
  refine ⟨?_, ?_, ?_⟩
  · intro object hfind hfree
    obtain ⟨before, after, heq, hid, hb⟩ := (find_eq_some_iff _ _ _).1 hfind
    refine ⟨before, after, heq, hb, ?_⟩
    have hstore := @store_split before after object _ (fun n => { n with lock := true }) hid hb
    rw [← heq] at hstore
    simp [npheap_lock, hfind, lock_object, hfree, hstore]
  · intro object hfind hheld
    simp [npheap_lock, hfind, lock_object, hheld]
  · intro habsent hnew
    have hb := (find_eq_none_iff _ _).1 habsent
    have hstore := @store_split st.nodes []
      { size := 0, data := NULL, object_ID := cmd.offset / PAGE_SIZE, lock := false } _
      (fun n => { n with lock := true }) rfl hb
    simp only [npheap_lock, habsent, create_node_eq _ hnew, lock_object]
    simp [hnew, hstore]

/-- Witness of C9: object 1 is in the registry with a free lock and is locked; object 7
is held and a lock of it waits; object 2 is absent and is created at the end. -/
theorem C9_lock_find_or_create_witness :
    (∃ before after,
      [({ size := 0, data := NULL, object_ID := 7, lock := true } : node_structure),
        { size := 4096, data := 64, object_ID := 1, lock := false }]
        = before ++ { size := 4096, data := 64, object_ID := 1, lock := false } :: after ∧
      (∀ m ∈ before, m.object_ID ≠ 4096 / PAGE_SIZE) ∧
      npheap_lock
          { nodes := [{ size := 0, data := NULL, object_ID := 7, lock := true },
                      { size := 4096, data := 64, object_ID := 1, lock := false }],
            kheap := [64], mapped := [] } (some { offset := 4096 }) 128
        = .returned 0
          { nodes := before ++ { size := 4096, data := 64, object_ID := 1, lock := true } :: after,
            kheap := [64], mapped := [] }) ∧
    npheap_lock
        { nodes := [{ size := 0, data := NULL, object_ID := 7, lock := true },
                    { size := 4096, data := 64, object_ID := 1, lock := false }],
          kheap := [64], mapped := [] } (some { offset := 28672 }) 128
      = .blocked
        { nodes := [{ size := 0, data := NULL, object_ID := 7, lock := true },
                    { size := 4096, data := 64, object_ID := 1, lock := false }],
          kheap := [64], mapped := [] } ∧
    npheap_lock
        { nodes := [{ size := 0, data := NULL, object_ID := 7, lock := true },
                    { size := 4096, data := 64, object_ID := 1, lock := false }],
          kheap := [64], mapped := [] } (some { offset := 8192 }) 128
      = .returned 0
        { nodes := [{ size := 0, data := NULL, object_ID := 7, lock := true },
                    { size := 4096, data := 64, object_ID := 1, lock := false }] ++
                   [{ size := 0, data := NULL, object_ID := 8192 / PAGE_SIZE, lock := true }],
          kheap := [64], mapped := [] } :=
  ⟨(C9_lock_find_or_create
      { nodes := [{ size := 0, data := NULL, object_ID := 7, lock := true },
                  { size := 4096, data := 64, object_ID := 1, lock := false }],
        kheap := [64], mapped := [] } { offset := 4096 } 128).1
      { size := 4096, data := 64, object_ID := 1, lock := false } (by decide) rfl,
   (C9_lock_find_or_create
      { nodes := [{ size := 0, data := NULL, object_ID := 7, lock := true },
                  { size := 4096, data := 64, object_ID := 1, lock := false }],
        kheap := [64], mapped := [] } { offset := 28672 } 128).2.1
      { size := 0, data := NULL, object_ID := 7, lock := true } (by decide) rfl,
   (C9_lock_find_or_create
      { nodes := [{ size := 0, data := NULL, object_ID := 7, lock := true },
                  { size := 4096, data := 64, object_ID := 1, lock := false }],
        kheap := [64], mapped := [] } { offset := 8192 } 128).2.2
      (by decide) (by decide)⟩

/-- C10 (the code at the failing input): when the identifier is absent and `kmalloc`
fails inside `create_node`, `npheap_lock` does not return `ENOMEM`: `create_node` writes
through the null pointer, both when the chain is empty (`head->next`) and when it is
not (`new_node->next`). -/
theorem C10_lock_kmalloc_failure_oops :
    npheap_lock State.init (some { offset := 0 }) NULL = .oops ∧
    npheap_lock
        { nodes := [{ size := 0, data := NULL, object_ID := 1, lock := false }],
          kheap := [], mapped := [] } (some { offset := 0 }) NULL
      = .oops := by
  constructor <;> decide

/-! ## The identifiers of the registry -/

theorem map_id_store (nodes : List node_structure) (id : Nat)
    (f : node_structure → node_structure) (hf : ∀ n, (f n).object_ID = n.object_ID) :
    (store nodes id f).map (fun n => n.object_ID) = nodes.map (fun n => n.object_ID) := by
  induction nodes with
  | nil => rfl
  | cons temp rest ih =>
    by_cases ht : temp.object_ID = id
    · simp [store, ht, hf]
    · simp [store, ht, ih]

theorem mmap_remap_ids (st : State) (vma : vm_area_struct) (allocated_data remap_ret : Nat) :
    (mmap_remap st vma allocated_data remap_ret).leaves (fun st1 => st1.ids = st.ids) := by
  unfold mmap_remap
  split
  · exact map_id_store _ _ _ (fun _ => rfl)
  · rfl

theorem lock_object_ids (st : State) (id : Nat) (object : node_structure) :
    (lock_object st id object).leaves (fun st1 => st1.ids = st.ids) := by
  unfold lock_object
  split
  · rfl
  · exact map_id_store _ _ _ (fun _ => rfl)

/-- What one call does to the identifiers: nothing, or, for a lock of an identifier that
`find` does not find, that identifier is appended. -/
theorem step_ids (st : State) (c : Call) :
    (step st c).leaves (fun st1 => st1.ids = st.ids ∨
      ∃ cmd new_node, c = .lock (some cmd) new_node ∧
        find st.nodes (cmd.offset / PAGE_SIZE) = none ∧
        st1.ids = st.ids ++ [cmd.offset / PAGE_SIZE]) := by
  cases c with
  | lock user_cmd new_node =>
    cases user_cmd with
    | none => exact Or.inl rfl
    | some cmd =>
      simp only [step, npheap_lock]
      split
      · have h := lock_object_ids st (cmd.offset / PAGE_SIZE) ‹_›
        revert h
        cases lock_object st (cmd.offset / PAGE_SIZE) ‹_› <;> intro h
        · exact Or.inl h
        · exact Or.inl h
        · trivial
      · rename_i habsent
        split
        · trivial
        · rename_i object nodes1 hcreate
          have hn : new_node ≠ NULL := by
            intro h0
            rw [h0, create_node_null] at hcreate
            exact Option.noConfusion hcreate
          rw [create_node_eq _ hn] at hcreate
          simp only [Option.some.injEq, Prod.mk.injEq] at hcreate
          have hids : State.ids { st with nodes := nodes1 } =
              st.ids ++ [cmd.offset / PAGE_SIZE] := by
            rw [← hcreate.2]
            simp [State.ids]
          split
          · exact Or.inr ⟨cmd, new_node, rfl, habsent, hids⟩
          · have h := lock_object_ids { st with nodes := nodes1 } (cmd.offset / PAGE_SIZE)
              { size := 0, data := NULL, object_ID := cmd.offset / PAGE_SIZE, lock := false }
            revert h
            cases lock_object { st with nodes := nodes1 } (cmd.offset / PAGE_SIZE)
              { size := 0, data := NULL, object_ID := cmd.offset / PAGE_SIZE, lock := false }
              <;> intro h
            · exact Or.inr ⟨cmd, new_node, rfl, habsent, h.trans hids⟩
            · exact Or.inr ⟨cmd, new_node, rfl, habsent, h.trans hids⟩
            · trivial
  | unlock user_cmd =>
    cases user_cmd with
    | none => exact Or.inl rfl
    | some cmd =>
      simp only [step, npheap_unlock]
      split
      · exact Or.inl (map_id_store _ _ _ (fun _ => rfl))
      · exact Or.inl rfl
  | mmap vma kmalloc_ret remap_ret =>
    simp only [step, npheap_mmap]
    split
    · exact Or.inl rfl
    · split
      · split
        · exact Or.inl rfl
        · split
          · exact Or.inl rfl
          · have h := mmap_remap_ids { st with
              kheap := kmalloc_ret :: st.kheap
              nodes := store st.nodes vma.vm_pgoff
                (fun n => { n with size := node_size vma, data := kmalloc_ret }) }
              vma kmalloc_ret remap_ret
            have hids : State.ids { st with
              kheap := kmalloc_ret :: st.kheap
              nodes := store st.nodes vma.vm_pgoff
                (fun n => { n with size := node_size vma, data := kmalloc_ret }) } = st.ids :=
              map_id_store _ _ _ (fun _ => rfl)
            revert h
            cases mmap_remap { st with
              kheap := kmalloc_ret :: st.kheap
              nodes := store st.nodes vma.vm_pgoff
                (fun n => { n with size := node_size vma, data := kmalloc_ret }) }
              vma kmalloc_ret remap_ret <;> intro h
            · exact Or.inl (h.trans hids)
            · exact Or.inl (h.trans hids)
            · trivial
      · split
        · exact Or.inl rfl
        · have h := mmap_remap_ids st vma ‹node_structure›.data remap_ret
          revert h
          cases mmap_remap st vma ‹node_structure›.data remap_ret <;> intro h
          · exact Or.inl h
          · exact Or.inl h
          · trivial
  | getsize user_cmd =>
    cases user_cmd with
    | none => exact Or.inl rfl
    | some cmd =>
      simp only [step, npheap_getsize]
      split <;> exact Or.inl rfl
  | delete user_cmd =>
    cases user_cmd with
    | none => exact Or.inl rfl
    | some cmd =>
      simp only [step, npheap_delete]
      split
      · split
        · exact Or.inl (map_id_store _ _ _ (fun _ => rfl))
        · exact Or.inl rfl
      · exact Or.inl rfl

theorem Outcome.leaves_mono {P Q : State → Prop} {o : Outcome}
    (hPQ : ∀ st, P st → Q st) (h : o.leaves P) : o.leaves Q := by
  cases o with
  | returned ret st => exact hPQ st h
  | blocked st => exact hPQ st h
  | oops => trivial

theorem step_ids_nodup (st : State) (c : Call) (h : st.ids.Nodup) :
    (step st c).leaves (fun st1 => st1.ids.Nodup) := by
  refine Outcome.leaves_mono ?_ (step_ids st c)
  rintro st1 (heq | ⟨cmd, _, _, habsent, heq⟩)
  · rw [heq]; exact h
  · rw [heq]
    have hnot : cmd.offset / PAGE_SIZE ∉ st.ids := by
      intro hmem
      obtain ⟨n, hn, hid⟩ := List.mem_map.1 hmem
      exact (find_eq_none_iff _ _).1 habsent n hn hid
    simp [List.nodup_append, h, hnot]

theorem run_ids_nodup (calls : List Call) :
    ∀ (st st1 : State), st.ids.Nodup → run st calls = some st1 → st1.ids.Nodup := by
  induction calls with
  | nil =>
    intro st st1 h hrun
    simp only [run, Option.some.injEq] at hrun
    exact hrun ▸ h
  | cons c cs ih =>
    intro st st1 h hrun
    have hstep := step_ids_nodup st c h
    simp only [run] at hrun
    split at hrun
    · rename_i ret st2 heq
      rw [heq] at hstep
      exact ih st2 st1 hstep hrun
    · rename_i st2 heq
      rw [heq] at hstep
      exact ih st2 st1 hstep hrun
    · exact Option.noConfusion hrun

/-- C11: identifiers are never removed and only `npheap_lock` creates them. For every
call of the five operations, with any outcome of the host primitives, the sequence of
object identifiers of the state the call leaves (on return, or while it waits for a held
lock) is the sequence before the call, or, only for `npheap_lock`, the sequence before
with the identifier of the call appended at the end. -/
theorem C11_identifiers_kept (st : State) (c : Call) :
    (step st c).leaves (fun st1 => st1.ids = st.ids ∨
      ∃ cmd new_node, c = .lock (some cmd) new_node ∧
        st1.ids = st.ids ++ [cmd.offset / PAGE_SIZE]) := by
  refine Outcome.leaves_mono ?_ (step_ids st c)
  rintro st1 (heq | ⟨cmd, new_node, hc, _, heq⟩)
  · exact Or.inl heq
  · exact Or.inr ⟨cmd, new_node, hc, heq⟩

/-- C12: identifier uniqueness is an invariant. In every state reachable from the empty
registry by any sequence of calls, no two records have the same `object_ID`. -/
theorem C12_identifiers_unique (calls : List Call) (st : State)
    (hrun : run State.init calls = some st) : st.ids.Nodup :=
  run_ids_nodup calls State.init st (by simp [State.ids, State.init]) hrun

/-- Witness of C12: object 1 is locked twice (the second call waits), object 2 is
locked, object 1 is unlocked and locked again; the registry holds 1 and 2 once each. -/
theorem C12_identifiers_unique_witness :
    run State.init
        [Call.lock (some { offset := 4096 }) 64, Call.lock (some { offset := 4097 }) 128,
         Call.lock (some { offset := 8192 }) 192, Call.unlock (some { offset := 4096 }),
         Call.lock (some { offset := 4100 }) 256]
      = some { nodes := [{ size := 0, data := NULL, object_ID := 1, lock := true },
                         { size := 0, data := NULL, object_ID := 2, lock := true }],
               kheap := [], mapped := [] } ∧
    (State.ids { nodes := [{ size := 0, data := NULL, object_ID := 1, lock := true },
                           { size := 0, data := NULL, object_ID := 2, lock := true }],
                 kheap := [], mapped := [] }).Nodup :=
  ⟨by decide,
   C12_identifiers_unique
    [Call.lock (some { offset := 4096 }) 64, Call.lock (some { offset := 4097 }) 128,
     Call.lock (some { offset := 8192 }) 192, Call.unlock (some { offset := 4096 }),
     Call.lock (some { offset := 4100 }) 256]
    { nodes := [{ size := 0, data := NULL, object_ID := 1, lock := true },
                { size := 0, data := NULL, object_ID := 2, lock := true }],
      kheap := [], mapped := [] } (by decide)⟩

/-! ## Successful calls on an existing record -/

theorem getsize_found {st : State} {cmd : npheap_cmd} {n : node_structure}
    (hfind : find st.nodes (cmd.offset / PAGE_SIZE) = some n) :
    npheap_getsize st (some cmd) = .returned n.size st := by
  simp [npheap_getsize, hfind]

theorem mmap_empty_ok {st : State} {vma : vm_area_struct} {n : node_structure}
    (kmalloc_ret : Nat) (hfind : find st.nodes vma.vm_pgoff = some n)
    (hdata : n.data = NULL) (hsize : n.size = 0) (hk : kmalloc_ret ≠ NULL) :
    ∃ st1, npheap_mmap st vma kmalloc_ret 0 = .returned 0 st1 ∧
      find st1.nodes vma.vm_pgoff =
        some { n with size := node_size vma, data := kmalloc_ret } := by
  have hid : n.object_ID = vma.vm_pgoff := find_some_id hfind
  have hcall : npheap_mmap st vma kmalloc_ret 0 =
      mmap_remap { st with
        kheap := kmalloc_ret :: st.kheap
        nodes := store st.nodes vma.vm_pgoff
          (fun n => { n with size := node_size vma, data := kmalloc_ret }) }
        vma kmalloc_ret 0 := by
    simp [npheap_mmap, hfind, hdata, hk, hsize]
  rw [hcall]
  unfold mmap_remap
  rw [if_neg (by simp)]
  have h2 := find_store (fun n => { n with size := node_size vma, data := kmalloc_ret })
    hfind hid
  exact ⟨_, rfl, h2⟩

theorem unlock_found {st : State} {cmd : npheap_cmd} {n : node_structure}
    (hfind : find st.nodes (cmd.offset / PAGE_SIZE) = some n) :
    ∃ st1, npheap_unlock st (some cmd) = .returned 0 st1 ∧
      find st1.nodes (cmd.offset / PAGE_SIZE) = some { n with lock := false } := by
  have hid : n.object_ID = cmd.offset / PAGE_SIZE := find_some_id hfind
  have h2 := find_store (fun n => { n with lock := false }) hfind hid
  refine ⟨{ st with
    nodes := store st.nodes (cmd.offset / PAGE_SIZE) (fun n => { n with lock := false }) },
    ?_, h2⟩
  simp [npheap_unlock, hfind]

theorem lock_found_free {st : State} {cmd : npheap_cmd} {n : node_structure}
    (new_node : Nat) (hfind : find st.nodes (cmd.offset / PAGE_SIZE) = some n)
    (hfree : n.lock = false) :
    ∃ st1, npheap_lock st (some cmd) new_node = .returned 0 st1 ∧
      find st1.nodes (cmd.offset / PAGE_SIZE) = some { n with lock := true } := by
  have hid : n.object_ID = cmd.offset / PAGE_SIZE := find_some_id hfind
  have h2 := find_store (fun n => { n with lock := true }) hfind hid
  refine ⟨{ st with
    nodes := store st.nodes (cmd.offset / PAGE_SIZE) (fun n => { n with lock := true }) },
    ?_, h2⟩
  simp [npheap_lock, hfind, lock_object, hfree]

theorem lock_absent_ok {st : State} {cmd : npheap_cmd} {new_node : Nat}
    (habsent : find st.nodes (cmd.offset / PAGE_SIZE) = none) (hnew : new_node ≠ NULL) :
    npheap_lock st (some cmd) new_node = .returned 0 { st with
      nodes := st.nodes ++ [{ size := 0, data := NULL,
                              object_ID := cmd.offset / PAGE_SIZE, lock := true }] } := by
  have hb := (find_eq_none_iff _ _).1 habsent
  have hstore := @store_split st.nodes []
    { size := 0, data := NULL, object_ID := cmd.offset / PAGE_SIZE, lock := false } _
    (fun n => { n with lock := true }) rfl hb
  simp only [npheap_lock, habsent, create_node_eq _ hnew, lock_object]
  simp [hnew, hstore]

/-- C13: a released object can be mapped again with any size. If `npheap_mmap` for the
identifier returned 0 with length `L1`, and `npheap_delete` for it then returned 0, a
following `npheap_mmap` with any length `L2` (equal to `L1` or not), for which `kmalloc`
and `remap_pfn_range` succeed, returns 0, and `npheap_getsize` then returns `L2`. -/
theorem C13_map_again_after_release (st st1 st2 : State) (cmd : npheap_cmd)
    (vma1 vma2 : vm_area_struct) (k1 r1 k2 : Nat)
    (_hid1 : vma1.vm_pgoff = cmd.offset / PAGE_SIZE)
    (hid2 : vma2.vm_pgoff = cmd.offset / PAGE_SIZE)
    (_hmap : npheap_mmap st vma1 k1 r1 = .returned 0 st1)
    (hdel : npheap_delete st1 (some cmd) = .returned 0 st2)
    (hk : k2 ≠ NULL) :
    ∃ st3, npheap_mmap st2 vma2 k2 0 = .returned 0 st3 ∧
      npheap_getsize st3 (some cmd) = .returned (node_size vma2) st3 := by
  obtain ⟨object, _, _, hfind2, _⟩ := delete_returned_zero hdel
  rw [← hid2] at hfind2
  obtain ⟨st3, hcall, hfind3⟩ := mmap_empty_ok k2 hfind2 rfl rfl hk
  rw [hid2] at hfind3
  exact ⟨st3, hcall, getsize_found hfind3⟩

/-- Witness of C13: object 2 is mapped with 4096 bytes, released, and mapped again with
8192 bytes. -/
theorem C13_map_again_after_release_witness :
    ∃ st3,
      npheap_mmap
          { nodes := [{ size := 0, data := NULL, object_ID := 2, lock := true }],
            kheap := [], mapped := [{ vm_start := 0, buffer := 64, size := 4096 }] }
          { vm_start := 0, vm_end := 8192, vm_pgoff := 2 } 128 0
        = .returned 0 st3 ∧
      npheap_getsize st3 (some { offset := 8192 })
        = .returned (node_size { vm_start := 0, vm_end := 8192, vm_pgoff := 2 }) st3 :=
  C13_map_again_after_release
    { nodes := [{ size := 0, data := NULL, object_ID := 2, lock := true }],
      kheap := [], mapped := [] }
    { nodes := [{ size := 4096, data := 64, object_ID := 2, lock := true }],
      kheap := [64], mapped := [{ vm_start := 0, buffer := 64, size := 4096 }] }
    { nodes := [{ size := 0, data := NULL, object_ID := 2, lock := true }],
      kheap := [], mapped := [{ vm_start := 0, buffer := 64, size := 4096 }] }
    { offset := 8192 }
    { vm_start := 0, vm_end := 4096, vm_pgoff := 2 }
    { vm_start := 0, vm_end := 8192, vm_pgoff := 2 }
    64 0 128 (by decide) (by decide) (by decide) (by decide) (by decide)

/-- C14: the scenario of the specification, for every identifier that has no record yet
and every length, with the allocations and the mapping succeeding. `npheap_lock` returns
0 and creates the record, held, with size 0; `npheap_mmap` then returns 0 and the size
is the requested length; `npheap_unlock` then returns 0 and the lock is free; a
following `npheap_lock` returns 0 and the lock is held again; and `npheap_getsize`
returns the requested length after the `npheap_mmap`, after the `npheap_unlock` and
after the second `npheap_lock`. -/
theorem C14_lock_map_unlock_lock (st : State) (cmd : npheap_cmd) (vma : vm_area_struct)
    (new_node new_node2 kmalloc_ret : Nat)
    (hfresh : find st.nodes (cmd.offset / PAGE_SIZE) = none)
    (hvma : vma.vm_pgoff = cmd.offset / PAGE_SIZE)
    (hnew : new_node ≠ NULL) (hk : kmalloc_ret ≠ NULL) :
    ∃ st1 st2 st3 st4,
      npheap_lock st (some cmd) new_node = .returned 0 st1 ∧
      find st1.nodes (cmd.offset / PAGE_SIZE) =
        some { size := 0, data := NULL, object_ID := cmd.offset / PAGE_SIZE, lock := true } ∧
      npheap_mmap st1 vma kmalloc_ret 0 = .returned 0 st2 ∧
      find st2.nodes (cmd.offset / PAGE_SIZE) =
        some { size := node_size vma, data := kmalloc_ret,
               object_ID := cmd.offset / PAGE_SIZE, lock := true } ∧
      npheap_getsize st2 (some cmd) = .returned (node_size vma) st2 ∧
      npheap_unlock st2 (some cmd) = .returned 0 st3 ∧
      find st3.nodes (cmd.offset / PAGE_SIZE) =
        some { size := node_size vma, data := kmalloc_ret,
               object_ID := cmd.offset / PAGE_SIZE, lock := false } ∧
      npheap_getsize st3 (some cmd) = .returned (node_size vma) st3 ∧
      npheap_lock st3 (some cmd) new_node2 = .returned 0 st4 ∧
      find st4.nodes (cmd.offset / PAGE_SIZE) =
        some { size := node_size vma, data := kmalloc_ret,
               object_ID := cmd.offset / PAGE_SIZE, lock := true } ∧
      npheap_getsize st4 (some cmd) = .returned (node_size vma) st4 := by
  have hlock := lock_absent_ok hfresh hnew
  have hfind1 := find_append_of_none
    { size := 0, data := NULL, object_ID := cmd.offset / PAGE_SIZE, lock := true }
    hfresh rfl
  have hfind1v : find (State.nodes { st with
      nodes := st.nodes ++ [{ size := 0, data := NULL,
                              object_ID := cmd.offset / PAGE_SIZE, lock := true }] })
      vma.vm_pgoff = some
        { size := 0, data := NULL, object_ID := cmd.offset / PAGE_SIZE, lock := true } := by
    rw [hvma]; exact hfind1
  obtain ⟨st2, hmap, hfind2⟩ := mmap_empty_ok kmalloc_ret hfind1v rfl rfl hk
  rw [hvma] at hfind2
  obtain ⟨st3, hunlock, hfind3⟩ := unlock_found hfind2
  obtain ⟨st4, hlock2, hfind4⟩ := lock_found_free new_node2 hfind3 rfl
  exact ⟨_, st2, st3, st4, hlock, hfind1, hmap, hfind2, getsize_found hfind2, hunlock,
    hfind3, getsize_found hfind3, hlock2, hfind4, getsize_found hfind4⟩

/-- Witness of C14: identifier 42 (offset 42 * 4096) and length 4096 on the empty
registry. -/
theorem C14_lock_map_unlock_lock_witness :
    ∃ st1 st2 st3 st4,
      npheap_lock State.init (some { offset := 172032 }) 64 = .returned 0 st1 ∧
      find st1.nodes (172032 / PAGE_SIZE) =
        some { size := 0, data := NULL, object_ID := 172032 / PAGE_SIZE, lock := true } ∧
      npheap_mmap st1 { vm_start := 0, vm_end := 4096, vm_pgoff := 42 } 128 0
        = .returned 0 st2 ∧
      find st2.nodes (172032 / PAGE_SIZE) =
        some { size := node_size { vm_start := 0, vm_end := 4096, vm_pgoff := 42 },
               data := 128, object_ID := 172032 / PAGE_SIZE, lock := true } ∧
      npheap_getsize st2 (some { offset := 172032 })
        = .returned (node_size { vm_start := 0, vm_end := 4096, vm_pgoff := 42 }) st2 ∧
      npheap_unlock st2 (some { offset := 172032 }) = .returned 0 st3 ∧
      find st3.nodes (172032 / PAGE_SIZE) =
        some { size := node_size { vm_start := 0, vm_end := 4096, vm_pgoff := 42 },
               data := 128, object_ID := 172032 / PAGE_SIZE, lock := false } ∧
      npheap_getsize st3 (some { offset := 172032 })
        = .returned (node_size { vm_start := 0, vm_end := 4096, vm_pgoff := 42 }) st3 ∧
      npheap_lock st3 (some { offset := 172032 }) 0 = .returned 0 st4 ∧
      find st4.nodes (172032 / PAGE_SIZE) =
        some { size := node_size { vm_start := 0, vm_end := 4096, vm_pgoff := 42 },
               data := 128, object_ID := 172032 / PAGE_SIZE, lock := true } ∧
      npheap_getsize st4 (some { offset := 172032 })
        = .returned (node_size { vm_start := 0, vm_end := 4096, vm_pgoff := 42 }) st4 :=
  C14_lock_map_unlock_lock State.init { offset := 172032 }
    { vm_start := 0, vm_end := 4096, vm_pgoff := 42 } 64 0 128
    (by decide) (by decide) (by decide) (by decide)

/-! ## Lock state and backing store -/

theorem map_store {β : Type} (g : node_structure → β) (nodes : List node_structure)
    (id : Nat) (f : node_structure → node_structure) (hf : ∀ n, g (f n) = g n) :
    (store nodes id f).map g = nodes.map g := by
  induction nodes with
  | nil => rfl
  | cons temp rest ih =>
    by_cases ht : temp.object_ID = id
    · simp [store, ht, hf]
    · simp [store, ht, ih]

theorem find_map_forget_lock (nodes : List node_structure) (id : Nat) :
    find (nodes.map forget_lock) id = (find nodes id).map forget_lock := by
  induction nodes with
  | nil => rfl
  | cons temp rest ih =>
    by_cases ht : temp.object_ID = id
    · simp [find, forget_lock, ht]
    · simp [find, forget_lock, ht]
      simpa [forget_lock] using ih

theorem store_map_forget_lock (nodes : List node_structure) (id : Nat)
    (f : node_structure → node_structure)
    (hf : ∀ n, forget_lock (f n) = f (forget_lock n)) :
    (store nodes id f).map forget_lock = store (nodes.map forget_lock) id f := by
  induction nodes with
  | nil => rfl
  | cons temp rest ih =>
    by_cases ht : temp.object_ID = id
    · subst ht
      simp [store, forget_lock]
      simpa [forget_lock] using hf temp
    · simp [store, forget_lock, ht]
      simpa [forget_lock] using ih

theorem mmap_remap_forget_locks (st : State) (vma : vm_area_struct)
    (allocated_data remap_ret : Nat) :
    (mmap_remap st vma allocated_data remap_ret).forget_locks =
      mmap_remap st.forget_locks vma allocated_data remap_ret := by
  unfold mmap_remap
  split
  · simp only [Outcome.forget_locks, State.forget_locks]
    rw [store_map_forget_lock _ _ (fun n => { n with size := 0, data := NULL })
      (fun _ => rfl)]
  · rfl

theorem mmap_remap_locks (st : State) (vma : vm_area_struct) (allocated_data remap_ret : Nat) :
    (mmap_remap st vma allocated_data remap_ret).leaves (fun st1 => st1.locks = st.locks) := by
  unfold mmap_remap
  split
  · exact map_store _ _ _ _ (fun _ => rfl)
  · rfl

theorem mmap_forget_locks (st : State) (vma : vm_area_struct) (kmalloc_ret remap_ret : Nat) :
    (npheap_mmap st vma kmalloc_ret remap_ret).forget_locks =
      npheap_mmap st.forget_locks vma kmalloc_ret remap_ret := by
  have hfind := find_map_forget_lock st.nodes vma.vm_pgoff
  unfold npheap_mmap
  simp only [State.forget_locks] at hfind ⊢
  rw [hfind]
  cases hf : find st.nodes vma.vm_pgoff with
  | none => rfl
  | some node =>
    simp only [Option.map_some', forget_lock]
    by_cases hd : node.data = NULL
    · by_cases hk : kmalloc_ret = NULL
      · simp [hd, hk, Outcome.forget_locks, State.forget_locks]
      · by_cases hs : node.size = 0
        · simp only [hd, hk, hs, if_true, if_false, ne_eq, not_true_eq_false]
          rw [mmap_remap_forget_locks]
          simp only [State.forget_locks]
          rw [store_map_forget_lock _ _
            (fun n => { n with size := node_size vma, data := kmalloc_ret }) (fun _ => rfl)]
        · simp [hd, hk, hs, Outcome.forget_locks, State.forget_locks]
    · by_cases hs : node_size vma = node.size
      · simp only [hd, hs, if_false, ne_eq, not_true_eq_false]
        rw [mmap_remap_forget_locks]
        rfl
      · simp [hd, hs, Outcome.forget_locks, State.forget_locks]

theorem mmap_locks (st : State) (vma : vm_area_struct) (kmalloc_ret remap_ret : Nat) :
    (npheap_mmap st vma kmalloc_ret remap_ret).leaves (fun st1 => st1.locks = st.locks) := by
  simp only [npheap_mmap]
  split
  · rfl
  · split
    · split
      · rfl
      · split
        · rfl
        · refine Outcome.leaves_mono ?_ (mmap_remap_locks _ vma kmalloc_ret remap_ret)
          intro st1 h
          rw [h]
          exact map_store _ _ _ _ (fun _ => rfl)
    · split
      · rfl
      · exact mmap_remap_locks _ _ _ _

theorem getsize_forget_locks (st : State) (user_cmd : Option npheap_cmd) :
    (npheap_getsize st user_cmd).forget_locks = npheap_getsize st.forget_locks user_cmd := by
  cases user_cmd with
  | none => rfl
  | some cmd =>
    have hfind := find_map_forget_lock st.nodes (cmd.offset / PAGE_SIZE)
    unfold npheap_getsize
    simp only [State.forget_locks] at hfind ⊢
    rw [hfind]
    cases hf : find st.nodes (cmd.offset / PAGE_SIZE) with
    | none => rfl
    | some object => rfl

theorem getsize_state (st : State) (user_cmd : Option npheap_cmd) :
    (npheap_getsize st user_cmd).leaves (fun st1 => st1 = st) := by
  cases user_cmd with
  | none => rfl
  | some cmd =>
    simp only [npheap_getsize]
    split <;> rfl

theorem delete_forget_locks (st : State) (user_cmd : Option npheap_cmd) :
    (npheap_delete st user_cmd).forget_locks = npheap_delete st.forget_locks user_cmd := by
  cases user_cmd with
  | none => rfl
  | some cmd =>
    have hfind := find_map_forget_lock st.nodes (cmd.offset / PAGE_SIZE)
    unfold npheap_delete
    simp only [State.forget_locks] at hfind ⊢
    rw [hfind]
    cases hf : find st.nodes (cmd.offset / PAGE_SIZE) with
    | none => rfl
    | some object =>
      simp only [Option.map_some', forget_lock]
      by_cases hd : object.data = NULL
      · simp [hd, Outcome.forget_locks, State.forget_locks]
      · simp only [hd, ne_eq, not_false_eq_true, if_true, Outcome.forget_locks,
          State.forget_locks]
        rw [store_map_forget_lock _ _ (fun n => { n with data := NULL, size := 0 })
          (fun _ => rfl)]

theorem delete_locks (st : State) (user_cmd : Option npheap_cmd) :
    (npheap_delete st user_cmd).leaves (fun st1 => st1.locks = st.locks) := by
  cases user_cmd with
  | none => rfl
  | some cmd =>
    simp only [npheap_delete]
    split
    · split
      · exact map_store _ _ _ _ (fun _ => rfl)
      · rfl
    · rfl

theorem lock_object_backings (st : State) (id : Nat) (object : node_structure) :
    (lock_object st id object).leaves (fun st1 =>
      st1.backings = st.backings ∧ st1.kheap = st.kheap ∧ st1.mapped = st.mapped) := by
  unfold lock_object
  split
  · exact ⟨rfl, rfl, rfl⟩
  · exact ⟨map_store _ _ _ _ (fun _ => rfl), rfl, rfl⟩

theorem lock_backings (st : State) (user_cmd : Option npheap_cmd) (new_node : Nat) :
    (npheap_lock st user_cmd new_node).leaves (fun st1 =>
      (st1.backings = st.backings ∨ st1.backings = st.backings ++ [(0, NULL)]) ∧
      st1.kheap = st.kheap ∧ st1.mapped = st.mapped) := by
  cases user_cmd with
  | none => exact ⟨Or.inl rfl, rfl, rfl⟩
  | some cmd =>
    simp only [npheap_lock]
    split
    · refine Outcome.leaves_mono ?_ (lock_object_backings _ _ _)
      rintro st1 ⟨h1, h2, h3⟩
      exact ⟨Or.inl h1, h2, h3⟩
    · split
      · trivial
      · rename_i object nodes1 hcreate
        have hn : new_node ≠ NULL := by
          intro h0
          rw [h0, create_node_null] at hcreate
          exact Option.noConfusion hcreate
        rw [create_node_eq _ hn] at hcreate
        simp only [Option.some.injEq, Prod.mk.injEq] at hcreate
        have hb : State.backings { st with nodes := nodes1 } =
            st.backings ++ [(0, NULL)] := by
          rw [← hcreate.2]
          simp [State.backings]
        split
        · exact ⟨Or.inr hb, rfl, rfl⟩
        · refine Outcome.leaves_mono ?_ (lock_object_backings _ _ _)
          rintro st1 ⟨h1, h2, h3⟩
          exact ⟨Or.inr (h1.trans hb), h2, h3⟩

theorem unlock_backings (st : State) (user_cmd : Option npheap_cmd) :
    (npheap_unlock st user_cmd).leaves (fun st1 =>
      st1.backings = st.backings ∧ st1.kheap = st.kheap ∧ st1.mapped = st.mapped) := by
  cases user_cmd with
  | none => exact ⟨rfl, rfl, rfl⟩
  | some cmd =>
    simp only [npheap_unlock]
    split
    · exact ⟨map_store _ _ _ _ (fun _ => rfl), rfl, rfl⟩
    · exact ⟨rfl, rfl, rfl⟩

/-- C15: lock state and backing store are orthogonal. `npheap_mmap`, `npheap_getsize`
and `npheap_delete` leave the lock state of every record as it was, and they behave the
same whether locks are free or held: forgetting the lock states before the call or
after it gives the same outcome (same returned value, same sizes, buffers, allocations
and mappings). `npheap_lock` and `npheap_unlock` leave the size and the buffer of every
record, the allocations and the mappings as they were; `npheap_lock` may only add the
size 0 and the null buffer of the record it creates at the end. -/
theorem C15_lock_orthogonal_to_backing (st : State) :
    (∀ (vma : vm_area_struct) (kmalloc_ret remap_ret : Nat),
      (npheap_mmap st vma kmalloc_ret remap_ret).leaves (fun st1 => st1.locks = st.locks) ∧
      (npheap_mmap st vma kmalloc_ret remap_ret).forget_locks =
        npheap_mmap st.forget_locks vma kmalloc_ret remap_ret) ∧
    (∀ user_cmd : Option npheap_cmd,
      (npheap_getsize st user_cmd).leaves (fun st1 => st1.locks = st.locks) ∧
      (npheap_getsize st user_cmd).forget_locks = npheap_getsize st.forget_locks user_cmd) ∧
    (∀ user_cmd : Option npheap_cmd,
      (npheap_delete st user_cmd).leaves (fun st1 => st1.locks = st.locks) ∧
      (npheap_delete st user_cmd).forget_locks = npheap_delete st.forget_locks user_cmd) ∧
    (∀ (user_cmd : Option npheap_cmd) (new_node : Nat),
      (npheap_lock st user_cmd new_node).leaves (fun st1 =>
        (st1.backings = st.backings ∨ st1.backings = st.backings ++ [(0, NULL)]) ∧
        st1.kheap = st.kheap ∧ st1.mapped = st.mapped)) ∧
    (∀ user_cmd : Option npheap_cmd,
      (npheap_unlock st user_cmd).leaves (fun st1 =>
        st1.backings = st.backings ∧ st1.kheap = st.kheap ∧ st1.mapped = st.mapped)) := by
  refine ⟨fun vma k r => ⟨mmap_locks st vma k r, mmap_forget_locks st vma k r⟩,
    fun uc => ⟨?_, getsize_forget_locks st uc⟩,
    fun uc => ⟨delete_locks st uc, delete_forget_locks st uc⟩,
    fun uc nn => lock_backings st uc nn, fun uc => unlock_backings st uc⟩
  exact Outcome.leaves_mono (fun st1 h => by rw [h]) (getsize_state st uc)

/-! ## Invariants of the records along sequences of calls -/

/-- A property of single records that holds for a new record, does not depend on the
lock, holds after size and buffer are cleared, and holds after the size and buffer that
call `c` sets, is kept by `c`. -/
theorem step_forall (P : node_structure → Prop) (st : State) (c : Call)
    (hnew : ∀ id, P { size := 0, data := NULL, object_ID := id, lock := false })
    (hlock : ∀ n b, P n → P { n with lock := b })
    (hclear : ∀ n, P n → P { n with size := 0, data := NULL })
    (hset : ∀ n vma k r, c = .mmap vma k r → k ≠ NULL →
      P n → P { n with size := node_size vma, data := k })
    (h : ∀ n ∈ st.nodes, P n) :
    (step st c).leaves (fun st1 => ∀ n ∈ st1.nodes, P n) := by
  have hremap : ∀ (s : State) (vma : vm_area_struct) (a r : Nat), (∀ n ∈ s.nodes, P n) →
      (mmap_remap s vma a r).leaves (fun st1 => ∀ n ∈ st1.nodes, P n) := by
    intro s vma a r hs
    unfold mmap_remap
    split
    · exact store_forall hs (fun n hn => hclear n (hs n hn))
    · exact hs
  have hlo : ∀ (s : State) (id : Nat) (object : node_structure), (∀ n ∈ s.nodes, P n) →
      (lock_object s id object).leaves (fun st1 => ∀ n ∈ st1.nodes, P n) := by
    intro s id object hs
    unfold lock_object
    split
    · exact hs
    · exact store_forall hs (fun n hn => hlock n true (hs n hn))
  cases c with
  | lock user_cmd new_node =>
    cases user_cmd with
    | none => exact h
    | some cmd =>
      simp only [step, npheap_lock]
      split
      · exact hlo _ _ _ h
      · split
        · trivial
        · rename_i object nodes1 hcreate
          have hn : new_node ≠ NULL := by
            intro h0
            rw [h0, create_node_null] at hcreate
            exact Option.noConfusion hcreate
          rw [create_node_eq _ hn] at hcreate
          simp only [Option.some.injEq, Prod.mk.injEq] at hcreate
          have h1 : ∀ n ∈ State.nodes { st with nodes := nodes1 }, P n := by
            intro n hmem
            rw [← hcreate.2] at hmem
            rcases List.mem_append.1 hmem with hmem | hmem
            · exact h n hmem
            · simp at hmem
              subst hmem
              exact hnew _
          split
          · exact h1
          · exact hlo _ _ _ h1
  | unlock user_cmd =>
    cases user_cmd with
    | none => exact h
    | some cmd =>
      simp only [step, npheap_unlock]
      split
      · exact store_forall h (fun n hn => hlock n false (h n hn))
      · exact h
  | mmap vma kmalloc_ret remap_ret =>
    simp only [step, npheap_mmap]
    split
    · exact h
    · split
      · split
        · exact h
        · rename_i hk
          split
          · exact h
          · apply hremap
            exact store_forall h (fun n hn => hset n vma kmalloc_ret remap_ret rfl hk (h n hn))
      · split
        · exact h
        · exact hremap _ _ _ _ h
  | getsize user_cmd =>
    cases user_cmd with
    | none => exact h
    | some cmd =>
      simp only [step, npheap_getsize]
      split <;> exact h
  | delete user_cmd =>
    cases user_cmd with
    | none => exact h
    | some cmd =>
      simp only [step, npheap_delete]
      split
      · split
        · exact store_forall h (fun n hn => hclear n (h n hn))
        · exact h
      · exact h

theorem run_forall (P : node_structure → Prop) (Q : Call → Prop)
    (hnew : ∀ id, P { size := 0, data := NULL, object_ID := id, lock := false })
    (hlock : ∀ n b, P n → P { n with lock := b })
    (hclear : ∀ n, P n → P { n with size := 0, data := NULL })
    (hset : ∀ n vma k r, Q (.mmap vma k r) → k ≠ NULL →
      P n → P { n with size := node_size vma, data := k })
    (calls : List Call) :
    ∀ (st st1 : State), (∀ n ∈ st.nodes, P n) → (∀ c ∈ calls, Q c) →
      run st calls = some st1 → ∀ n ∈ st1.nodes, P n := by
  induction calls with
  | nil =>
    intro st st1 h _ hrun
    simp only [run, Option.some.injEq] at hrun
    exact hrun ▸ h
  | cons c cs ih =>
    intro st st1 h hQ hrun
    have hstep := step_forall P st c hnew hlock hclear
      (fun n vma k r hc => hset n vma k r (hc ▸ hQ c (by simp))) h
    have hcs : ∀ c1 ∈ cs, Q c1 := fun c1 hc1 => hQ c1 (List.mem_cons_of_mem _ hc1)
    simp only [run] at hrun
    split at hrun
    · rename_i ret st2 heq
      rw [heq] at hstep
      exact ih st2 st1 hstep hcs hrun
    · rename_i st2 heq
      rw [heq] at hstep
      exact ih st2 st1 hstep hcs hrun
    · exact Option.noConfusion hrun

/-- C17: `find` is a correct linear lookup. For every chain and identifier it returns
`NULL` exactly when no record has the identifier; it returns a record exactly when that
record is the first of the chain, in insertion order, with the identifier; so it is the
first match of the chain. The chain is an input of `find` only: nothing is written. -/
theorem C17_find_linear_lookup (nodes : List node_structure) (id : Nat) :
    (find nodes id = none ↔ ∀ n ∈ nodes, n.object_ID ≠ id) ∧
    (∀ n, find nodes id = some n ↔
      ∃ before after, nodes = before ++ n :: after ∧ n.object_ID = id ∧
        ∀ m ∈ before, m.object_ID ≠ id) ∧
    find nodes id = nodes.find? (fun n => decide (n.object_ID = id)) := by
  refine ⟨find_eq_none_iff nodes id, find_eq_some_iff nodes id, ?_⟩
  induction nodes with
  | nil => rfl
  | cons temp rest ih =>
    by_cases ht : temp.object_ID = id
    · simp [find, List.find?, ht]
    · simp [find, List.find?, ht, ih]

/-- C18: the value `npheap_getsize` returns tells failure from success. In the states
reachable from the empty registry by any sequence of calls (an `npheap_mmap` being
called for a vma whose length is a whole number of pages, as every vma is), the value
returned for a present identifier is never the value returned for an absent identifier
(in any state): the first is a multiple of the page size, the second is `EINVAL`. -/
theorem C18_getsize_page_aligned (calls : List Call) (st1 st2 : State)
    (cmd1 cmd2 : npheap_cmd)
    (haligned : ∀ c ∈ calls, c.page_aligned = true)
    (hrun : run State.init calls = some st2)
    (habsent : find st1.nodes (cmd1.offset / PAGE_SIZE) = none)
    (hpresent : find st2.nodes (cmd2.offset / PAGE_SIZE) ≠ none) :
    (npheap_getsize st1 (some cmd1)).ret = some EINVAL ∧
    (npheap_getsize st2 (some cmd2)).ret ≠ (npheap_getsize st1 (some cmd1)).ret := by
  have hinv := run_forall (fun n => n.size % PAGE_SIZE = 0)
    (fun c => c.page_aligned = true) (fun _ => rfl) (fun _ _ h => h) (fun _ _ => rfl)
    (fun n vma k r hq _ _ => by simpa [Call.page_aligned] using hq)
    calls State.init st2 (by intro n hn; simp [State.init] at hn) haligned hrun
  have h1 : (npheap_getsize st1 (some cmd1)).ret = some EINVAL := by
    simp [npheap_getsize, habsent, Outcome.ret]
  refine ⟨h1, ?_⟩
  rw [h1]
  cases hf : find st2.nodes (cmd2.offset / PAGE_SIZE) with
  | none => exact absurd hf hpresent
  | some object =>
    have hsz : object.size % PAGE_SIZE = 0 := hinv object (find_some_mem hf)
    simp only [npheap_getsize, hf, Outcome.ret, ne_eq, Option.some.injEq]
    intro h22
    rw [h22] at hsz
    simp at hsz

/-- Witness of C18: object 1 is locked and mapped with one page; object 2 is absent. -/
theorem C18_getsize_page_aligned_witness :
    (npheap_getsize
        { nodes := [{ size := 4096, data := 64, object_ID := 1, lock := true }],
          kheap := [64], mapped := [{ vm_start := 0, buffer := 64, size := 4096 }] }
        (some { offset := 8192 })).ret = some EINVAL ∧
    (npheap_getsize
        { nodes := [{ size := 4096, data := 64, object_ID := 1, lock := true }],
          kheap := [64], mapped := [{ vm_start := 0, buffer := 64, size := 4096 }] }
        (some { offset := 4096 })).ret ≠
      (npheap_getsize
        { nodes := [{ size := 4096, data := 64, object_ID := 1, lock := true }],
          kheap := [64], mapped := [{ vm_start := 0, buffer := 64, size := 4096 }] }
        (some { offset := 8192 })).ret :=
  C18_getsize_page_aligned
    [Call.lock (some { offset := 4096 }) 4096,
     Call.mmap { vm_start := 0, vm_end := 4096, vm_pgoff := 1 } 64 0]
    { nodes := [{ size := 4096, data := 64, object_ID := 1, lock := true }],
      kheap := [64], mapped := [{ vm_start := 0, buffer := 64, size := 4096 }] }
    { nodes := [{ size := 4096, data := 64, object_ID := 1, lock := true }],
      kheap := [64], mapped := [{ vm_start := 0, buffer := 64, size := 4096 }] }
    { offset := 8192 } { offset := 4096 }
    (by decide) (by decide) (by decide) (by decide)

/-- C20: in every state reachable from the empty registry by any sequence of calls, a
record with no buffer has size 0. Therefore the branch of `npheap_mmap` that frees the
fresh allocation and returns `ENOMEM` because `node->size != 0` is never taken, and an
`npheap_mmap` for which `kmalloc` succeeds never returns `ENOMEM`. -/
theorem C20_null_data_size_zero (calls : List Call) (st : State)
    (hrun : run State.init calls = some st) :
    (∀ n ∈ st.nodes, n.data = NULL → n.size = 0) ∧
    (∀ (vma : vm_area_struct) (kmalloc_ret : Nat),
      mmap_size_branch st vma kmalloc_ret = false) ∧
    (∀ (vma : vm_area_struct) (kmalloc_ret remap_ret : Nat), kmalloc_ret ≠ NULL →
      (npheap_mmap st vma kmalloc_ret remap_ret).ret ≠ some ENOMEM) := by
  have hinv := run_forall (fun n => n.data = NULL → n.size = 0) (fun _ => True)
    (fun _ _ => rfl) (fun _ _ h => h) (fun _ _ _ => rfl)
    (fun n vma k r _ hk _ hd => absurd hd hk)
    calls State.init st (by intro n hn; simp [State.init] at hn) (fun _ _ => trivial) hrun
  refine ⟨hinv, ?_, ?_⟩
  · intro vma kmalloc_ret
    unfold mmap_size_branch
    cases hf : find st.nodes vma.vm_pgoff with
    | none => rfl
    | some node =>
      have h0 := hinv node (find_some_mem hf)
      simp only [decide_eq_false_iff_not, not_and]
      intro hd _ hs
      exact hs (h0 hd)
  · intro vma kmalloc_ret remap_ret hk
    unfold npheap_mmap
    cases hf : find st.nodes vma.vm_pgoff with
    | none => simp [Outcome.ret]
    | some node =>
      have h0 := hinv node (find_some_mem hf)
      by_cases hd : node.data = NULL
      · simp only [hd, hk, h0 hd, if_true, if_false, ne_eq, not_true_eq_false]
        unfold mmap_remap
        split <;> simp [Outcome.ret]
      · simp only [hd, if_false]
        split
        · simp [Outcome.ret]
        · unfold mmap_remap
          split <;> simp [Outcome.ret]

/-- Witness of C20: object 3 is locked, mapped, released, and mapped again with the
host mapping failing; the record is left without buffer and with size 0. -/
theorem C20_null_data_size_zero_witness :
    run State.init
        [Call.lock (some { offset := 12288 }) 4096,
         Call.mmap { vm_start := 0, vm_end := 4096, vm_pgoff := 3 } 8192 0,
         Call.delete (some { offset := 12288 }),
         Call.mmap { vm_start := 0, vm_end := 8192, vm_pgoff := 3 } 16384 1]
      = some { nodes := [{ size := 0, data := NULL, object_ID := 3, lock := true }],
               kheap := [], mapped := [{ vm_start := 0, buffer := 8192, size := 4096 }] } ∧
    mmap_size_branch
        { nodes := [{ size := 0, data := NULL, object_ID := 3, lock := true }],
          kheap := [], mapped := [{ vm_start := 0, buffer := 8192, size := 4096 }] }
        { vm_start := 0, vm_end := 4096, vm_pgoff := 3 } 64 = false :=
  ⟨by decide,
   (C20_null_data_size_zero
    [Call.lock (some { offset := 12288 }) 4096,
     Call.mmap { vm_start := 0, vm_end := 4096, vm_pgoff := 3 } 8192 0,
     Call.delete (some { offset := 12288 }),
     Call.mmap { vm_start := 0, vm_end := 8192, vm_pgoff := 3 } 16384 1]
    { nodes := [{ size := 0, data := NULL, object_ID := 3, lock := true }],
      kheap := [], mapped := [{ vm_start := 0, buffer := 8192, size := 4096 }] }
    (by decide)).2.1 { vm_start := 0, vm_end := 4096, vm_pgoff := 3 } 64⟩

/-! ## Records of other identifiers -/

theorem filter_store (nodes : List node_structure) (A B : Nat)
    (f : node_structure → node_structure) (hAB : A ≠ B)
    (hf : ∀ n, (f n).object_ID = n.object_ID) :
    (store nodes A f).filter (fun n => decide (n.object_ID = B)) =
      nodes.filter (fun n => decide (n.object_ID = B)) := by
  induction nodes with
  | nil => rfl
  | cons temp rest ih =>
    by_cases ht : temp.object_ID = A
    · have h1 : ¬ temp.object_ID = B := fun h => hAB (ht.symm.trans h)
      have h2 : ¬ (f temp).object_ID = B := by rw [hf]; exact h1
      simp [store, ht, List.filter_cons, h1, h2, hAB]
    · simp [store, ht, List.filter_cons, ih]

theorem mmap_remap_filter (st : State) (vma : vm_area_struct) (allocated_data remap_ret : Nat)
    (B : Nat) (hB : vma.vm_pgoff ≠ B) :
    (mmap_remap st vma allocated_data remap_ret).leaves (fun st1 =>
      st1.nodes.filter (fun n => decide (n.object_ID = B)) =
        st.nodes.filter (fun n => decide (n.object_ID = B))) := by
  unfold mmap_remap
  split
  · exact filter_store _ _ _ _ hB (fun _ => rfl)
  · rfl

theorem lock_object_filter (st : State) (A : Nat) (object : node_structure)
    (B : Nat) (hB : A ≠ B) :
    (lock_object st A object).leaves (fun st1 =>
      st1.nodes.filter (fun n => decide (n.object_ID = B)) =
        st.nodes.filter (fun n => decide (n.object_ID = B))) := by
  unfold lock_object
  split
  · rfl
  · exact filter_store _ _ _ _ hB (fun _ => rfl)

/-- C19: operations are local to their identifier. For every call that names identifier
`A` (or names none, `copy_from_user` having failed), every outcome of the host
primitives, and every identifier `B` other than `A`, the records with `object_ID = B`
are after the call exactly the records before it, in the same order: size, buffer and
lock state are unchanged. -/
theorem C19_other_identifiers_untouched (st : State) (c : Call) (B : Nat)
    (hB : c.ident ≠ some B) :
    (step st c).leaves (fun st1 =>
      st1.nodes.filter (fun n => decide (n.object_ID = B)) =
        st.nodes.filter (fun n => decide (n.object_ID = B))) := by
  cases c with
  | lock user_cmd new_node =>
    cases user_cmd with
    | none => rfl
    | some cmd =>
      have hAB : cmd.offset / PAGE_SIZE ≠ B := by
        intro h
        exact hB (by simp [Call.ident, h])
      simp only [step, npheap_lock]
      split
      · exact lock_object_filter _ _ _ _ hAB
      · split
        · trivial
        · rename_i object nodes1 hcreate
          have hn : new_node ≠ NULL := by
            intro h0
            rw [h0, create_node_null] at hcreate
            exact Option.noConfusion hcreate
          rw [create_node_eq _ hn] at hcreate
          simp only [Option.some.injEq, Prod.mk.injEq] at hcreate
          have h1 : nodes1.filter (fun n => decide (n.object_ID = B)) =
              st.nodes.filter (fun n => decide (n.object_ID = B)) := by
            rw [← hcreate.2]
            simp [List.filter_append, List.filter_cons, hAB]
          split
          · exact h1
          · refine Outcome.leaves_mono ?_
              (lock_object_filter { st with nodes := nodes1 } _ _ _ hAB)
            intro st1 h
            exact h.trans h1
  | unlock user_cmd =>
    cases user_cmd with
    | none => rfl
    | some cmd =>
      have hAB : cmd.offset / PAGE_SIZE ≠ B := by
        intro h
        exact hB (by simp [Call.ident, h])
      simp only [step, npheap_unlock]
      split
      · exact filter_store _ _ _ _ hAB (fun _ => rfl)
      · rfl
  | mmap vma kmalloc_ret remap_ret =>
    have hAB : vma.vm_pgoff ≠ B := by
      intro h
      exact hB (by simp [Call.ident, h])
    simp only [step, npheap_mmap]
    split
    · rfl
    · split
      · split
        · rfl
        · split
          · rfl
          · refine Outcome.leaves_mono ?_ (mmap_remap_filter _ vma kmalloc_ret remap_ret B hAB)
            intro st1 h
            exact h.trans (filter_store _ _ _ _ hAB (fun _ => rfl))
      · split
        · rfl
        · exact mmap_remap_filter _ _ _ _ B hAB
  | getsize user_cmd =>
    cases user_cmd with
    | none => rfl
    | some cmd =>
      simp only [step, npheap_getsize]
      split <;> rfl
  | delete user_cmd =>
    cases user_cmd with
    | none => rfl
    | some cmd =>
      have hAB : cmd.offset / PAGE_SIZE ≠ B := by
        intro h
        exact hB (by simp [Call.ident, h])
      simp only [step, npheap_delete]
      split
      · split
        · exact filter_store _ _ _ _ hAB (fun _ => rfl)
        · rfl
      · rfl

/-- Witness of C19: object 1 is released while object 2 is backed and held; the record
of object 2 is the same afterwards. -/
theorem C19_other_identifiers_untouched_witness :
    (step
        { nodes := [{ size := 4096, data := 64, object_ID := 1, lock := false },
                    { size := 8192, data := 128, object_ID := 2, lock := true }],
          kheap := [128, 64], mapped := [] }
        (Call.delete (some { offset := 4096 }))).leaves (fun st1 =>
      st1.nodes.filter (fun n => decide (n.object_ID = 2)) =
        List.filter (fun n => decide (n.object_ID = 2))
          [{ size := 4096, data := 64, object_ID := 1, lock := false },
           { size := 8192, data := 128, object_ID := 2, lock := true }]) :=
  C19_other_identifiers_untouched
    { nodes := [{ size := 4096, data := 64, object_ID := 1, lock := false },
                { size := 8192, data := 128, object_ID := 2, lock := true }],
      kheap := [128, 64], mapped := [] }
    (Call.delete (some { offset := 4096 })) 2 (by decide)

end NPHeap
